import Mathlib

/-!
Shallow embedding of the `roxy` language front end (scanner, parser,
evaluator) from `src/lib.rs`, `src/parser.rs`, `src/interpreter.rs` and
`src/intrepreter.rs`, together with theorems settling the spec claims.

Modelling conventions:
* Rust `f64` is modelled by `F64` below: an idealised IEEE-754 double with
  a single NaN, two infinities and exact rational finite values (rounding
  and signed zero are not modelled; no claim depends on them).  The
  comparison operators follow IEEE semantics: every comparison involving
  NaN is false.
* Rust `String` is modelled by Lean `String`; the scanner's source text by
  `List Char` (the scanner walks code points; byte/code-point indexing
  agree on the inputs the claims touch).
* `panic!` / `todo!` are modelled as `Except.error` values carrying the
  panic message, so every fallible operation returns `Except`.
* `while` loops in the scanner that only advance the cursor over a run of
  characters are translated with `List.takeWhile` over the remaining
  characters, which computes exactly the run the loop consumes; the
  scanner and parser main loops take explicit fuel (each Rust iteration
  consumes at least one input element, so fuel `length + 1` is enough).
-/

/-- Idealised IEEE-754 binary64: exact rationals for the finite doubles,
plus the two infinities and a single NaN. -/
inductive F64 where
  | finite (q : ℚ)
  | posInf
  | negInf
  | nan
  deriving DecidableEq, Repr

namespace F64

/-- IEEE `==` on doubles: NaN compares unequal to everything (itself
included); infinities compare equal to themselves. -/
def beq : F64 → F64 → Bool
  | finite q, finite r => q == r
  | posInf, posInf => true
  | negInf, negInf => true
  | _, _ => false

/-- IEEE `<`: false whenever either side is NaN. -/
def lt : F64 → F64 → Bool
  | finite q, finite r => q < r
  | finite _, posInf => true
  | negInf, finite _ => true
  | negInf, posInf => true
  | _, _ => false

/-- IEEE `<=`: false whenever either side is NaN. -/
def le (x y : F64) : Bool := F64.lt x y || F64.beq x y

/-- IEEE `>`. -/
def gt (x y : F64) : Bool := F64.lt y x

/-- IEEE `>=`. -/
def ge (x y : F64) : Bool := F64.le y x

/-- IEEE addition (idealised: exact on finite values). -/
def add : F64 → F64 → F64
  | finite q, finite r => finite (q + r)
  | finite _, posInf => posInf
  | finite _, negInf => negInf
  | posInf, finite _ => posInf
  | negInf, finite _ => negInf
  | posInf, posInf => posInf
  | negInf, negInf => negInf
  | posInf, negInf => nan
  | negInf, posInf => nan
  | nan, _ => nan
  | _, nan => nan

/-- IEEE negation. -/
def neg : F64 → F64
  | finite q => finite (-q)
  | posInf => negInf
  | negInf => posInf
  | nan => nan

/-- IEEE subtraction. -/
def sub (x y : F64) : F64 := F64.add x (F64.neg y)

/-- IEEE multiplication (idealised: exact on finite values; 0 · ∞ = NaN). -/
def mul : F64 → F64 → F64
  | finite q, finite r => finite (q * r)
  | finite q, posInf => if q = 0 then nan else if 0 < q then posInf else negInf
  | finite q, negInf => if q = 0 then nan else if 0 < q then negInf else posInf
  | posInf, finite q => if q = 0 then nan else if 0 < q then posInf else negInf
  | negInf, finite q => if q = 0 then nan else if 0 < q then negInf else posInf
  | posInf, posInf => posInf
  | negInf, negInf => posInf
  | posInf, negInf => negInf
  | negInf, posInf => negInf
  | nan, _ => nan
  | _, nan => nan

/-- IEEE division (idealised; signed zero not modelled, so finite/0 takes
the sign of the dividend and 0/0 = NaN). -/
def div : F64 → F64 → F64
  | finite q, finite r =>
      if r = 0 then (if q = 0 then nan else if 0 < q then posInf else negInf)
      else finite (q / r)
  | finite _, posInf => finite 0
  | finite _, negInf => finite 0
  | posInf, finite r => if 0 ≤ r then posInf else negInf
  | negInf, finite r => if 0 ≤ r then negInf else posInf
  | posInf, posInf => nan
  | posInf, negInf => nan
  | negInf, posInf => nan
  | negInf, negInf => nan
  | nan, _ => nan
  | _, nan => nan

end F64

/-! ## AST (`src/parser.rs`)

`enum Expr` and its payload structs `Binary`, `Unary`, `Grouping` are
inlined into one inductive: `Expr::Binary(Binary { left, operator, right })`
becomes `Expr.Binary operator left right`, and so on. -/

/-- `enum BinaryOperator` from `src/parser.rs`. -/
inductive BinaryOperator where
  | EqualEqual
  | NotEqual
  | LessThan
  | LessThanEqual
  | GreaterThan
  | GreaterThanEqual
  | Plus
  | Minus
  | Multiply
  | Divide
  deriving DecidableEq, Repr

/-- `enum UnaryOperator` from `src/parser.rs`. -/
inductive UnaryOperator where
  | Minus
  | Not
  deriving DecidableEq, Repr

/-- `enum Literal` from `src/parser.rs`. -/
inductive Literal where
  | String (s : String)
  | Number (n : F64)
  | Boolean (b : Bool)
  | Nil
  deriving DecidableEq, Repr

/-- `enum Expr` from `src/parser.rs`, with the `Binary`, `Unary` and
`Grouping` payload structs inlined as constructor arguments. -/
inductive Expr where
  | Binary (operator : BinaryOperator) (left right : Expr)
  | Unary (operator : UnaryOperator) (right : Expr)
  | Literal (l : Literal)
  | Grouping (expr : Expr)
  deriving DecidableEq, Repr

/-- `enum Stmt` from `src/parser.rs`. -/
inductive Stmt where
  | Expression (e : Expr)
  | Print (e : Expr)
  | Var (name : String) (initializer : Expr)
  deriving DecidableEq, Repr

/-! ## Runtime values and the evaluator (`src/interpreter.rs`)

`interpreter.rs` and `intrepreter.rs` each declare an identical
`enum Value`; the two are structurally the same type and are shared here. -/

/-- `enum Value` from `src/interpreter.rs` / `src/intrepreter.rs`. -/
inductive Value where
  | Number (n : F64)
  | String (s : String)
  | Boolean (b : Bool)
  | Nil
  deriving DecidableEq, Repr

/-- The `#[derive(PartialEq)]` equality on `Value`: variant-wise, with the
`Number` payloads compared by IEEE `f64 ==` (so `Number NaN ≠ Number NaN`). -/
def valueEq : Value → Value → Bool
  | Value.Number a, Value.Number b => F64.beq a b
  | Value.String a, Value.String b => a == b
  | Value.Boolean a, Value.Boolean b => a == b
  | Value.Nil, Value.Nil => true
  | _, _ => false

/-- A fatal evaluation error (`panic!` in the Rust source), carrying the
panic message. -/
inductive RtError where
  | typeError (msg : String)
  deriving DecidableEq, Repr

namespace Interpreter

/-- `Interpreter::is_truthy` from `src/interpreter.rs`. -/
def is_truthy : Value → Bool
  | Value.Nil => false
  | Value.Boolean b => b
  | _ => true

/-- `Interpreter::eval` from `src/interpreter.rs`; `panic!` is modelled as
`Except.error` carrying the panic message. -/
def eval : Expr → Except RtError Value
  | Expr.Binary op l r => do
      let left ← eval l
      let right ← eval r
      match op with
      | BinaryOperator.Minus =>
          match left, right with
          | Value.Number n1, Value.Number n2 => pure (Value.Number (F64.sub n1 n2))
          | _, _ => Except.error (RtError.typeError "You can only substract numbers")
      | BinaryOperator.Plus =>
          match left, right with
          | Value.Number n1, Value.Number n2 => pure (Value.Number (F64.add n1 n2))
          | Value.String s1, Value.String s2 => pure (Value.String (s1 ++ s2))
          | _, _ => Except.error (RtError.typeError "You can only add strings or numbers")
      | BinaryOperator.Multiply =>
          match left, right with
          | Value.Number n1, Value.Number n2 => pure (Value.Number (F64.mul n1 n2))
          | _, _ => Except.error (RtError.typeError "You can only multiply numbers")
      | BinaryOperator.Divide =>
          match left, right with
          | Value.Number n1, Value.Number n2 => pure (Value.Number (F64.div n1 n2))
          | _, _ => Except.error (RtError.typeError "You can only multiply numbers")
      | BinaryOperator.GreaterThan =>
          match left, right with
          | Value.Number n1, Value.Number n2 => pure (Value.Boolean (F64.gt n1 n2))
          | _, _ => Except.error (RtError.typeError "You can only multiply numbers")
      | BinaryOperator.LessThan =>
          match left, right with
          | Value.Number n1, Value.Number n2 => pure (Value.Boolean (F64.lt n1 n2))
          | _, _ => Except.error (RtError.typeError "You can only multiply numbers")
      | BinaryOperator.GreaterThanEqual =>
          match left, right with
          | Value.Number n1, Value.Number n2 => pure (Value.Boolean (F64.ge n1 n2))
          | _, _ => Except.error (RtError.typeError "You can only multiply numbers")
      | BinaryOperator.LessThanEqual =>
          match left, right with
          | Value.Number n1, Value.Number n2 => pure (Value.Boolean (F64.le n1 n2))
          | _, _ => Except.error (RtError.typeError "You can only multiply numbers")
      | BinaryOperator.EqualEqual => pure (Value.Boolean (valueEq left right))
      | BinaryOperator.NotEqual => pure (Value.Boolean (!valueEq left right))
  | Expr.Grouping g => eval g
  | Expr.Literal l =>
      match l with
      | Literal.String s => pure (Value.String s)
      | Literal.Number n => pure (Value.Number n)
      | Literal.Boolean b => pure (Value.Boolean b)
      | Literal.Nil => pure Value.Nil
  | Expr.Unary op u => do
      let right ← eval u
      match op with
      | UnaryOperator.Minus =>
          match right with
          | Value.Number n => pure (Value.Number (F64.neg n))
          | _ => Except.error (RtError.typeError "You can only negate a number")
      | UnaryOperator.Not => pure (Value.Boolean (!is_truthy right))

end Interpreter

namespace Intrepreter

/-- `Intrepreter::is_truthy` from `src/intrepreter.rs` (the second,
misspelt copy of the evaluator). -/
def is_truthy : Value → Bool
  | Value.Nil => false
  | Value.Boolean b => b
  | _ => true

/-- `Intrepreter::eval` from `src/intrepreter.rs`. -/
def eval : Expr → Except RtError Value
  | Expr.Binary op l r => do
      let left ← eval l
      let right ← eval r
      match op with
      | BinaryOperator.Minus =>
          match left, right with
          | Value.Number n1, Value.Number n2 => pure (Value.Number (F64.sub n1 n2))
          | _, _ => Except.error (RtError.typeError "You can only substract numbers")
      | BinaryOperator.Plus =>
          match left, right with
          | Value.Number n1, Value.Number n2 => pure (Value.Number (F64.add n1 n2))
          | Value.String s1, Value.String s2 => pure (Value.String (s1 ++ s2))
          | _, _ => Except.error (RtError.typeError "You can only add strings or numbers")
      | BinaryOperator.Multiply =>
          match left, right with
          | Value.Number n1, Value.Number n2 => pure (Value.Number (F64.mul n1 n2))
          | _, _ => Except.error (RtError.typeError "You can only multiply numbers")
      | BinaryOperator.Divide =>
          match left, right with
          | Value.Number n1, Value.Number n2 => pure (Value.Number (F64.div n1 n2))
          | _, _ => Except.error (RtError.typeError "You can only multiply numbers")
      | BinaryOperator.GreaterThan =>
          match left, right with
          | Value.Number n1, Value.Number n2 => pure (Value.Boolean (F64.gt n1 n2))
          | _, _ => Except.error (RtError.typeError "You can only multiply numbers")
      | BinaryOperator.LessThan =>
          match left, right with
          | Value.Number n1, Value.Number n2 => pure (Value.Boolean (F64.lt n1 n2))
          | _, _ => Except.error (RtError.typeError "You can only multiply numbers")
      | BinaryOperator.GreaterThanEqual =>
          match left, right with
          | Value.Number n1, Value.Number n2 => pure (Value.Boolean (F64.ge n1 n2))
          | _, _ => Except.error (RtError.typeError "You can only multiply numbers")
      | BinaryOperator.LessThanEqual =>
          match left, right with
          | Value.Number n1, Value.Number n2 => pure (Value.Boolean (F64.le n1 n2))
          | _, _ => Except.error (RtError.typeError "You can only multiply numbers")
      | BinaryOperator.EqualEqual => pure (Value.Boolean (valueEq left right))
      | BinaryOperator.NotEqual => pure (Value.Boolean (!valueEq left right))
  | Expr.Grouping g => eval g
  | Expr.Literal l =>
      match l with
      | Literal.String s => pure (Value.String s)
      | Literal.Number n => pure (Value.Number n)
      | Literal.Boolean b => pure (Value.Boolean b)
      | Literal.Nil => pure Value.Nil
  | Expr.Unary op u => do
      let right ← eval u
      match op with
      | UnaryOperator.Minus =>
          match right with
          | Value.Number n => pure (Value.Number (F64.neg n))
          | _ => Except.error (RtError.typeError "You can only negate a number")
      | UnaryOperator.Not => pure (Value.Boolean (!is_truthy right))

end Intrepreter

/-! ## Scanner (`src/lib.rs`, module `scanner`) -/

/-- `enum TokenKind` from `src/lib.rs`. -/
inductive TokenKind where
  | Bang
  | BangEqual
  | Equal
  | EqualEqual
  | Greater
  | GreaterEqual
  | Less
  | LessEqual
  | LeftParen
  | RightParen
  | LeftBrace
  | RightBrace
  | Comma
  | Dot
  | Minus
  | Plus
  | Semicolon
  | Slash
  | Star
  | And
  | Class
  | Else
  | False
  | Fun
  | For
  | If
  | Nil
  | Or
  | Print
  | Return
  | Super
  | This
  | True
  | Var
  | While
  | StringLiteral (s : String)
  | NumberLiteral (n : F64)
  | Identifier (s : String)
  | EOF
  deriving DecidableEq, Repr

/-- The `#[derive(PartialEq)]` equality on `TokenKind`: structural, except
that the `NumberLiteral` payload is compared by IEEE `f64 ==`. -/
def tkEq : TokenKind → TokenKind → Bool
  | TokenKind.NumberLiteral a, TokenKind.NumberLiteral b => F64.beq a b
  | a, b => decide (a = b)

/-- `struct Token` from `src/lib.rs`. -/
structure Token where
  kind : TokenKind
  line : Nat
  pos : Nat
  deriving DecidableEq, Repr

/-- A fatal scan failure (`panic!` / `todo!` in `src/lib.rs`), or fuel
exhaustion of the embedded driver loop (which real runs never hit, since
every loop iteration consumes at least one source character). -/
inductive ScanError where
  | unterminatedString (line : Nat)
  | unrecognizedChar (line : Nat)
  | cursorOutOfBounds
  | outOfFuel
  deriving DecidableEq, Repr

/-- `struct Scanner` from `src/lib.rs` (the source as a list of code
points). -/
structure ScanState where
  source : List Char
  tokens : List Token
  start : Nat
  current : Nat
  line : Nat
  deriving Repr

/-- `Scanner::is_lox_digit`. -/
def is_lox_digit (c : Char) : Bool := '0' ≤ c && c ≤ '9'

/-- `Scanner::is_lox_alphabetic`. -/
def is_lox_alphabetic (c : Char) : Bool :=
  ('a' ≤ c && c ≤ 'z') || ('A' ≤ c && c ≤ 'Z') || c == '_'

/-- `Scanner::is_lox_alphanumeric`. -/
def is_lox_alphanumeric (c : Char) : Bool := is_lox_alphabetic c || is_lox_digit c

/-- `Scanner::add_token`. -/
def addToken (st : ScanState) (t : Token) : ScanState :=
  { st with tokens := st.tokens ++ [t] }

/-- `Scanner::match_char`: one-character conditional lookahead; advances the
cursor exactly when the next character matches. -/
def match_char (st : ScanState) (c : Char) : Bool × ScanState :=
  match st.source.get? st.current with
  | some d => if d = c then (true, { st with current := st.current + 1 }) else (false, st)
  | none => (false, st)

/-- The keyword table of `Scanner::identifier` from `src/lib.rs`. -/
def keywordToken (text : String) (line pos : Nat) : Token :=
  if text = "and" then ⟨TokenKind.And, line, pos⟩
  else if text = "class" then ⟨TokenKind.Class, line, pos⟩
  else if text = "else" then ⟨TokenKind.Else, line, pos⟩
  else if text = "false" then ⟨TokenKind.False, line, pos⟩
  else if text = "for" then ⟨TokenKind.For, line, pos⟩
  else if text = "fun" then ⟨TokenKind.Fun, line, pos⟩
  else if text = "if" then ⟨TokenKind.If, line, pos⟩
  else if text = "nil" then ⟨TokenKind.Nil, line, pos⟩
  else if text = "or" then ⟨TokenKind.Or, line, pos⟩
  else if text = "print" then ⟨TokenKind.Print, line, pos⟩
  else if text = "return" then ⟨TokenKind.Return, line, pos⟩
  else if text = "super" then ⟨TokenKind.Super, line, pos⟩
  else if text = "this" then ⟨TokenKind.This, line, pos⟩
  else if text = "true" then ⟨TokenKind.True, line, pos⟩
  else if text = "var" then ⟨TokenKind.Var, line, pos⟩
  else if text = "while" then ⟨TokenKind.While, line, pos⟩
  else ⟨TokenKind.Identifier text, line, pos⟩

/-- `Scanner::string` from `src/lib.rs`, entered just after the opening `"`
was consumed (so `st.start` is the opening quote's index and `st.current`
is one past it).  The `while` loop consumes the maximal run of characters
before the closing quote, rendered here as `takeWhile`.  NOTE: the loop
body's line-counter condition is the reference's own
`if self.peek() != '\n' { self.line += 1; }`, which increments the line on
every NON-newline character of the run — translated faithfully as the
count of non-newline characters. -/
def string (st : ScanState) : Except ScanError ScanState :=
  let rest := st.source.drop st.current
  let pre := rest.takeWhile (fun ch => ch ≠ '"')
  let line1 := st.line + (pre.filter (fun ch => ch ≠ '\n')).length
  if pre.length = rest.length then
    Except.error (ScanError.unterminatedString line1)
  else
    let st2 := { st with current := st.current + pre.length + 1, line := line1 }
    Except.ok (addToken st2 ⟨TokenKind.StringLiteral pre.asString, st2.line, st2.current⟩)

/-- Digit-string value, used by the model of `str::parse::<f64>`. -/
def digitsVal (l : List Char) : ℕ :=
  l.foldl (fun a c => 10 * a + (c.toNat - Char.toNat '0')) 0

/-- Model of `raw.parse::<f64>().unwrap()` on the texts the scanner feeds
it (digits, optionally a dot and more digits): the exact rational value. -/
def parseF64 (raw : List Char) : F64 :=
  let ip := raw.takeWhile (fun ch => ch ≠ '.')
  let fp := (raw.dropWhile (fun ch => ch ≠ '.')).drop 1
  F64.finite ((digitsVal ip : ℚ) + (digitsVal fp : ℚ) / (10 ^ fp.length : ℚ))

/-- `Scanner::number` from `src/lib.rs`, entered just after the first digit
was consumed; the two digit-run `while` loops are rendered as `takeWhile`,
and `peek`/`peek_next` as `List.get?` (out of range reads as `'\0'`, which
is not a digit, exactly as in the source). -/
def number (st : ScanState) : ScanState :=
  let run := (st.source.drop st.current).takeWhile is_lox_digit
  let cur1 := st.current + run.length
  let cur2 :=
    match st.source.get? cur1, st.source.get? (cur1 + 1) with
    | some '.', some d =>
        if is_lox_digit d then
          let frac := (st.source.drop (cur1 + 1)).takeWhile is_lox_digit
          cur1 + 1 + frac.length
        else cur1
    | _, _ => cur1
  let raw := (st.source.drop st.start).take (cur2 - st.start)
  let st2 := { st with current := cur2 }
  addToken st2 ⟨TokenKind.NumberLiteral (parseF64 raw), st2.line, st2.current⟩

/-- `Scanner::identifier` from `src/lib.rs`, entered just after the first
letter/underscore was consumed; the alphanumeric-run `while` loop is
rendered as `takeWhile`, then the consumed text is looked up in the
keyword table. -/
def identifier (st : ScanState) : ScanState :=
  let run := (st.source.drop st.current).takeWhile is_lox_alphanumeric
  let cur := st.current + run.length
  let text := ((st.source.drop st.start).take (cur - st.start)).asString
  let st2 := { st with current := cur }
  addToken st2 (keywordToken text st2.line st2.current)

/-- `Scanner::scan_token` from `src/lib.rs`.  `advance` is the `get?` of
the current character plus the cursor increment; the `//`-comment loop is
rendered as `takeWhile`; the `todo!()` arm for unrecognized characters is
a `ScanError`. -/
def scanToken (st : ScanState) : Except ScanError ScanState :=
  match st.source.get? st.current with
  | none => Except.error ScanError.cursorOutOfBounds
  | some c =>
    let st1 : ScanState := { st with current := st.current + 1 }
    match c with
    | '(' => Except.ok (addToken st1 ⟨TokenKind.LeftParen, st1.line, st1.current⟩)
    | ')' => Except.ok (addToken st1 ⟨TokenKind.RightParen, st1.line, st1.current⟩)
    | '{' => Except.ok (addToken st1 ⟨TokenKind.LeftBrace, st1.line, st1.current⟩)
    | '}' => Except.ok (addToken st1 ⟨TokenKind.RightBrace, st1.line, st1.current⟩)
    | ',' => Except.ok (addToken st1 ⟨TokenKind.Comma, st1.line, st1.current⟩)
    | '.' => Except.ok (addToken st1 ⟨TokenKind.Dot, st1.line, st1.current⟩)
    | '-' => Except.ok (addToken st1 ⟨TokenKind.Minus, st1.line, st1.current⟩)
    | '+' => Except.ok (addToken st1 ⟨TokenKind.Plus, st1.line, st1.current⟩)
    | ';' => Except.ok (addToken st1 ⟨TokenKind.Semicolon, st1.line, st1.current⟩)
    | '*' => Except.ok (addToken st1 ⟨TokenKind.Star, st1.line, st1.current⟩)
    | ' ' => Except.ok st1
    | '\r' => Except.ok st1
    | '\t' => Except.ok st1
    | '\n' => Except.ok { st1 with line := st1.line + 1 }
    | '!' =>
        let (m, st2) := match_char st1 '='
        if m then Except.ok (addToken st2 ⟨TokenKind.BangEqual, st2.line, st2.current⟩)
        else Except.ok (addToken st2 ⟨TokenKind.Bang, st2.line, st2.current⟩)
    | '=' =>
        let (m, st2) := match_char st1 '='
        if m then Except.ok (addToken st2 ⟨TokenKind.EqualEqual, st2.line, st2.current⟩)
        else Except.ok (addToken st2 ⟨TokenKind.Equal, st2.line, st2.current⟩)
    | '<' =>
        let (m, st2) := match_char st1 '='
        if m then Except.ok (addToken st2 ⟨TokenKind.LessEqual, st2.line, st2.current⟩)
        else Except.ok (addToken st2 ⟨TokenKind.Less, st2.line, st2.current⟩)
    | '>' =>
        let (m, st2) := match_char st1 '='
        if m then Except.ok (addToken st2 ⟨TokenKind.GreaterEqual, st2.line, st2.current⟩)
        else Except.ok (addToken st2 ⟨TokenKind.Greater, st2.line, st2.current⟩)
    | '/' =>
        let (m, st2) := match_char st1 '/'
        if m then
          let len := ((st2.source.drop st2.current).takeWhile (fun ch => ch ≠ '\n')).length
          Except.ok { st2 with current := st2.current + len }
        else Except.ok (addToken st2 ⟨TokenKind.Slash, st2.line, st2.current⟩)
    | '"' => string st1
    | other =>
        if is_lox_digit other then Except.ok (number st1)
        else if is_lox_alphabetic other then Except.ok (identifier st1)
        else Except.error (ScanError.unrecognizedChar st1.line)

/-- The `while !self.is_at_end()` driver loop of `Scanner::scan_tokens`,
with explicit fuel (each iteration consumes at least one character, so
`source.length + 1` fuel always suffices); on exhaustion of the source it
appends the single EOF token and returns the sequence. -/
def scanLoop : Nat → ScanState → Except ScanError (List Token)
  | 0, _ => Except.error ScanError.outOfFuel
  | fuel + 1, st =>
      if st.current ≥ st.source.length then
        Except.ok (st.tokens ++ [⟨TokenKind.EOF, st.line, st.current⟩])
      else do
        let st' ← scanToken { st with start := st.current }
        scanLoop fuel st'

/-- `Scanner::scan_tokens` from `src/lib.rs` composed with `Scanner::new`:
scan a whole source text from the initial state. -/
def scanTokens (source : List Char) : Except ScanError (List Token) :=
  scanLoop (source.length + 1) { source := source, tokens := [], start := 0, current := 0, line := 1 }

/-! ## Parser (`src/parser.rs`)

Every parsing method of `struct Parser` is embedded as a function from a
cursor state to `Except`; the `while` loops of the binary-operator levels
become tail-recursive `..Loop` helpers carrying the running expression,
and the mutual recursion (`primary` recurses back into `expression` for
parenthesised groups, the level loops re-enter their operand parsers) is
made structural by explicit fuel: each function consumes one unit of fuel
per nested call, and real runs consume at least one token per loop
iteration, so fuel `tokens.length + 1` per nesting level suffices. -/

/-- A fatal parse failure (`panic!` in `src/parser.rs`), the panic of an
out-of-bounds `tokens[current]` index, or fuel exhaustion (which no real
run hits). -/
inductive PError where
  | parseErr (msg : String)
  | indexOutOfBounds
  | outOfFuel
  deriving DecidableEq, Repr

/-- `struct Parser`'s cursor: the token sequence and the read position. -/
structure PState where
  tokens : List Token
  current : Nat
  deriving Repr

namespace Parser

/-- `Parser::peek` (`&self.tokens[self.current]`; an out-of-range index is
the indexing panic). -/
def peekT (st : PState) : Except PError Token :=
  match st.tokens.get? st.current with
  | some t => Except.ok t
  | none => Except.error PError.indexOutOfBounds

/-- `Parser::previous` (`self.tokens[self.current - 1]`). -/
def previousT (st : PState) : Except PError Token :=
  match st.tokens.get? (st.current - 1) with
  | some t => Except.ok t
  | none => Except.error PError.indexOutOfBounds

/-- `Parser::is_at_end`: the current token is EOF. -/
def is_at_end (st : PState) : Except PError Bool := do
  let t ← peekT st
  pure (tkEq t.kind TokenKind.EOF)

/-- `Parser::check`: false at EOF, otherwise compare the current token's
kind (Rust `==`, i.e. the derived `PartialEq`). -/
def check (st : PState) (k : TokenKind) : Except PError Bool := do
  if (← is_at_end st) then
    pure false
  else do
    let t ← peekT st
    pure (tkEq t.kind k)

/-- `Parser::advance`: step the cursor unless at EOF; returns `previous`. -/
def advance (st : PState) : Except PError (Token × PState) := do
  let st' := if (← is_at_end st) then st else { st with current := st.current + 1 }
  let prev ← previousT st'
  pure (prev, st')

/-- `Parser::match_tokens`: try each kind in order; on the first `check`
success, `advance` and report true. -/
def match_tokens (st : PState) : List TokenKind → Except PError (Bool × PState)
  | [] => pure (false, st)
  | k :: ks => do
      if (← check st k) then do
        let (_, st') ← advance st
        pure (true, st')
      else match_tokens st ks

/-- `Parser::consume`: `advance` past the expected kind or raise a
ParseError with the given message. -/
def consume (st : PState) (k : TokenKind) (msg : String) : Except PError (Token × PState) := do
  if (← check st k) then advance st
  else Except.error (PError.parseErr msg)

mutual

/-- `Parser::expression`. -/
def expressionP : Nat → PState → Except PError (Expr × PState)
  | 0, _ => Except.error PError.outOfFuel
  | f + 1, st => equalityP f st

/-- `Parser::equality`: one `comparison`, then the `!=`/`==` loop. -/
def equalityP : Nat → PState → Except PError (Expr × PState)
  | 0, _ => Except.error PError.outOfFuel
  | f + 1, st => do
      let (e, st) ← comparisonP f st
      equalityLoopP f e st

/-- The `while self.match_tokens(vec![BangEqual, EqualEqual])` loop of
`Parser::equality`, carrying the running left expression. -/
def equalityLoopP : Nat → Expr → PState → Except PError (Expr × PState)
  | 0, _, _ => Except.error PError.outOfFuel
  | f + 1, e, st => do
      let (m, st) ← match_tokens st [TokenKind.BangEqual, TokenKind.EqualEqual]
      if m then do
        let op ← previousT st
        let operator ← (match op.kind with
          | TokenKind.BangEqual => Except.ok BinaryOperator.NotEqual
          | TokenKind.EqualEqual => Except.ok BinaryOperator.EqualEqual
          | _ => Except.error (PError.parseErr "only != and == is allowed"))
        let (right, st) ← comparisonP f st
        equalityLoopP f (Expr.Binary operator e right) st
      else pure (e, st)

/-- `Parser::comparison`: one `term`, then the relational-operator loop. -/
def comparisonP : Nat → PState → Except PError (Expr × PState)
  | 0, _ => Except.error PError.outOfFuel
  | f + 1, st => do
      let (e, st) ← termP f st
      comparisonLoopP f e st

/-- The `>` `>=` `<` `<=` loop of `Parser::comparison`. -/
def comparisonLoopP : Nat → Expr → PState → Except PError (Expr × PState)
  | 0, _, _ => Except.error PError.outOfFuel
  | f + 1, e, st => do
      let (m, st) ← match_tokens st
        [TokenKind.Greater, TokenKind.GreaterEqual, TokenKind.Less, TokenKind.LessEqual]
      if m then do
        let op ← previousT st
        let operator ← (match op.kind with
          | TokenKind.Greater => Except.ok BinaryOperator.GreaterThan
          | TokenKind.GreaterEqual => Except.ok BinaryOperator.GreaterThanEqual
          | TokenKind.Less => Except.ok BinaryOperator.LessThan
          | TokenKind.LessEqual => Except.ok BinaryOperator.LessThanEqual
          | _ => Except.error (PError.parseErr "only >, >=, < and <= is allowed as an operator"))
        let (right, st) ← termP f st
        comparisonLoopP f (Expr.Binary operator e right) st
      else pure (e, st)

/-- `Parser::term`: one `factor`, then the `-`/`+` loop. -/
def termP : Nat → PState → Except PError (Expr × PState)
  | 0, _ => Except.error PError.outOfFuel
  | f + 1, st => do
      let (e, st) ← factorP f st
      termLoopP f e st

/-- The `while self.match_tokens(vec![Minus, Plus])` loop of
`Parser::term`. -/
def termLoopP : Nat → Expr → PState → Except PError (Expr × PState)
  | 0, _, _ => Except.error PError.outOfFuel
  | f + 1, e, st => do
      let (m, st) ← match_tokens st [TokenKind.Minus, TokenKind.Plus]
      if m then do
        let op ← previousT st
        let operator ← (match op.kind with
          | TokenKind.Minus => Except.ok BinaryOperator.Minus
          | TokenKind.Plus => Except.ok BinaryOperator.Plus
          | _ => Except.error (PError.parseErr "Only - and + operators are allowed"))
        let (right, st) ← factorP f st
        termLoopP f (Expr.Binary operator e right) st
      else pure (e, st)

/-- `Parser::factor`: one `unary`, then the `/`/`*` loop. -/
def factorP : Nat → PState → Except PError (Expr × PState)
  | 0, _ => Except.error PError.outOfFuel
  | f + 1, st => do
      let (e, st) ← unaryP f st
      factorLoopP f e st

/-- The `while self.match_tokens(vec![Slash, Star])` loop of
`Parser::factor`. -/
def factorLoopP : Nat → Expr → PState → Except PError (Expr × PState)
  | 0, _, _ => Except.error PError.outOfFuel
  | f + 1, e, st => do
      let (m, st) ← match_tokens st [TokenKind.Slash, TokenKind.Star]
      if m then do
        let op ← previousT st
        let operator ← (match op.kind with
          | TokenKind.Slash => Except.ok BinaryOperator.Divide
          | TokenKind.Star => Except.ok BinaryOperator.Multiply
          | _ => Except.error (PError.parseErr "only / and * is allowed as an operator"))
        let (right, st) ← unaryP f st
        factorLoopP f (Expr.Binary operator e right) st
      else pure (e, st)

/-- `Parser::unary`: a `!`/`-` prefix recurses into `unary`, otherwise
fall through to `primary`. -/
def unaryP : Nat → PState → Except PError (Expr × PState)
  | 0, _ => Except.error PError.outOfFuel
  | f + 1, st => do
      let (m, st) ← match_tokens st [TokenKind.Bang, TokenKind.Minus]
      if m then do
        let op ← previousT st
        let operator ← (match op.kind with
          | TokenKind.Bang => Except.ok UnaryOperator.Not
          | TokenKind.Minus => Except.ok UnaryOperator.Minus
          | _ => Except.error (PError.parseErr "Only ! and - operator is allowed"))
        let (right, st) ← unaryP f st
        pure (Expr.Unary operator right, st)
      else primaryP f st

/-- `Parser::primary`: literal keywords via `match_tokens`, then literal
payload tokens via a direct look at `tokens[current]`, then a
parenthesised group (recursing into `expression` and requiring `)`), and
otherwise the `"is this part unreachable?"` panic. -/
def primaryP : Nat → PState → Except PError (Expr × PState)
  | 0, _ => Except.error PError.outOfFuel
  | f + 1, st => do
      let (m, st) ← match_tokens st [TokenKind.False]
      if m then pure (Expr.Literal (Literal.Boolean false), st)
      else do
      let (m, st) ← match_tokens st [TokenKind.True]
      if m then pure (Expr.Literal (Literal.Boolean true), st)
      else do
      let (m, st) ← match_tokens st [TokenKind.Nil]
      if m then pure (Expr.Literal Literal.Nil, st)
      else do
      let tok ← peekT st
      match tok.kind with
      | TokenKind.NumberLiteral n => do
          let (_, st) ← advance st
          pure (Expr.Literal (Literal.Number n), st)
      | TokenKind.StringLiteral s => do
          let (_, st) ← advance st
          pure (Expr.Literal (Literal.String s), st)
      | _ => do
          let (m, st) ← match_tokens st [TokenKind.LeftParen]
          match m with
          | true => do
              let (e, st) ← expressionP f st
              let (_, st) ← consume st TokenKind.RightParen "Expect ')' after expression"
              pure (Expr.Grouping e, st)
          | false => Except.error (PError.parseErr "is this part unreachable?")

end

/-- `Parser::print_statement`. -/
def print_statement (f : Nat) (st : PState) : Except PError (Stmt × PState) := do
  let (value, st) ← expressionP f st
  let (_, st) ← consume st TokenKind.Semicolon "Expect ';' after value."
  pure (Stmt.Print value, st)

/-- `Parser::expression_statement`. -/
def expression_statement (f : Nat) (st : PState) : Except PError (Stmt × PState) := do
  let (e, st) ← expressionP f st
  let (_, st) ← consume st TokenKind.Semicolon "Expect ';' after expression."
  pure (Stmt.Expression e, st)

/-- `Parser::statement`: dispatch on `tokens[current]` — `print` statement
or expression statement. -/
def statement (f : Nat) (st : PState) : Except PError (Stmt × PState) := do
  let tok ← peekT st
  match tok.kind with
  | TokenKind.Print => do
      let (_, st) ← advance st
      print_statement f st
  | _ => expression_statement f st

/-- `Parser::var_declaration` from `src/parser.rs`, entered after `var`
was consumed.  Faithful to the source's order: it remembers the name
token, advances past it, parses the optional `=` initializer, requires
the terminating `;`, and only THEN checks that the remembered token was
an Identifier, panicking otherwise. -/
def var_declaration (f : Nat) (st : PState) : Except PError (Stmt × PState) := do
  let name ← peekT st
  let (_, st) ← advance st
  let (m, st) ← match_tokens st [TokenKind.Equal]
  let (initializer, st) ←
    if m then expressionP f st
    else pure (Expr.Literal Literal.Nil, st)
  let (_, st) ← consume st TokenKind.Semicolon "Expect ';' after variable declaration"
  match name.kind with
  | TokenKind.Identifier n => pure (Stmt.Var n initializer, st)
  | _ => Except.error (PError.parseErr "Variable declarations require an identifier")

/-- `Parser::declaration`: a `var` keyword starts a variable declaration,
anything else a statement. -/
def declaration (f : Nat) (st : PState) : Except PError (Stmt × PState) := do
  let (m, st) ← match_tokens st [TokenKind.Var]
  if m then var_declaration f st
  else statement f st

/-- The `while !self.is_at_end()` loop of `Parser::parse`, accumulating
statements, with explicit fuel. -/
def parseLoop : Nat → List Stmt → PState → Except PError (List Stmt)
  | 0, _, _ => Except.error PError.outOfFuel
  | f + 1, acc, st => do
      if (← is_at_end st) then pure acc
      else do
        let (s, st) ← declaration f st
        parseLoop f (acc ++ [s]) st

/-- `Parser::parse` composed with `Parser::new`: parse a whole token
sequence into statements.  The Rust loop is unfueled; here the fuel
`16 * (length + 1)` dominates the call count of any run (every grammar
level spends one unit per nested call and there are ten levels, each
consuming at least one token per loop iteration). -/
def parse (tokens : List Token) : Except PError (List Stmt) :=
  parseLoop (16 * (tokens.length + 1)) [] { tokens := tokens, current := 0 }

end Parser

/-! ## Auxiliary definitions used by the theorem statements -/

/-- Number of EOF tokens in a token sequence. -/
def countEOF (ts : List Token) : Nat :=
  ts.countP (fun t => decide (t.kind = TokenKind.EOF))

/-- The token kinds `Parser::primary` resolves directly into a literal
expression: literal payload tokens and the literal keywords. -/
def isLitTok (k : TokenKind) : Prop :=
  (∃ n, k = TokenKind.NumberLiteral n) ∨ (∃ s, k = TokenKind.StringLiteral s) ∨
    k = TokenKind.True ∨ k = TokenKind.False ∨ k = TokenKind.Nil

/-- The literal expression `Parser::primary` produces for a literal token
kind (junk value on other kinds). -/
def litExpr : TokenKind → Expr
  | TokenKind.NumberLiteral n => Expr.Literal (Literal.Number n)
  | TokenKind.StringLiteral s => Expr.Literal (Literal.String s)
  | TokenKind.True => Expr.Literal (Literal.Boolean true)
  | TokenKind.False => Expr.Literal (Literal.Boolean false)
  | TokenKind.Nil => Expr.Literal Literal.Nil
  | _ => Expr.Literal Literal.Nil

/-- The `BinaryOperator` each operator-token kind converts to in the level
loops of `src/parser.rs` (junk value on non-operator kinds). -/
def binOp : TokenKind → BinaryOperator
  | TokenKind.BangEqual => BinaryOperator.NotEqual
  | TokenKind.EqualEqual => BinaryOperator.EqualEqual
  | TokenKind.Greater => BinaryOperator.GreaterThan
  | TokenKind.GreaterEqual => BinaryOperator.GreaterThanEqual
  | TokenKind.Less => BinaryOperator.LessThan
  | TokenKind.LessEqual => BinaryOperator.LessThanEqual
  | TokenKind.Minus => BinaryOperator.Minus
  | TokenKind.Plus => BinaryOperator.Plus
  | TokenKind.Slash => BinaryOperator.Divide
  | TokenKind.Star => BinaryOperator.Multiply
  | _ => BinaryOperator.Plus

/-- Two operator-token kinds belong to the same precedence level of the
grammar (`equality`, `comparison`, `term` or `factor`). -/
def sameLevel (k1 k2 : TokenKind) : Prop :=
  (k1 ∈ [TokenKind.BangEqual, TokenKind.EqualEqual]
      ∧ k2 ∈ [TokenKind.BangEqual, TokenKind.EqualEqual])
  ∨ (k1 ∈ [TokenKind.Greater, TokenKind.GreaterEqual, TokenKind.Less, TokenKind.LessEqual]
      ∧ k2 ∈ [TokenKind.Greater, TokenKind.GreaterEqual, TokenKind.Less, TokenKind.LessEqual])
  ∨ (k1 ∈ [TokenKind.Minus, TokenKind.Plus] ∧ k2 ∈ [TokenKind.Minus, TokenKind.Plus])
  ∨ (k1 ∈ [TokenKind.Slash, TokenKind.Star] ∧ k2 ∈ [TokenKind.Slash, TokenKind.Star])

/-! ## Theorems -/

/-- Bind on a successful `Except` reduces to the continuation. -/
theorem eok_bind {α β ε : Type} (a : α) (f : α → Except ε β) :
    (Except.ok a : Except ε α) >>= f = f a := rfl

/-- Bind on a failed `Except` propagates the error. -/
theorem eerr_bind {α β ε : Type} (e : ε) (f : α → Except ε β) :
    (Except.error e : Except ε α) >>= f = Except.error e := rfl

/-- `pure` of the `Except` monad is `Except.ok`. -/
theorem epure_def {α ε : Type} (a : α) : (pure a : Except ε α) = Except.ok a := rfl

/-- C1: For operand expressions l and r, `Binary(Add, l, r)` evaluates to
`Number (n1 + n2)` when both operands evaluate to Numbers, to the
concatenated String when both evaluate to Strings, and to the fatal
runtime type error for every other combination of operand value
variants. -/
theorem add_operand_cases (l r : Expr) (v1 v2 : Value)
    (hl : Interpreter.eval l = Except.ok v1)
    (hr : Interpreter.eval r = Except.ok v2) :
    (∀ n1 n2, v1 = Value.Number n1 → v2 = Value.Number n2 →
        Interpreter.eval (Expr.Binary BinaryOperator.Plus l r)
          = Except.ok (Value.Number (F64.add n1 n2)))
    ∧ (∀ s1 s2, v1 = Value.String s1 → v2 = Value.String s2 →
        Interpreter.eval (Expr.Binary BinaryOperator.Plus l r)
          = Except.ok (Value.String (s1 ++ s2)))
    ∧ ((∀ n1 n2, ¬(v1 = Value.Number n1 ∧ v2 = Value.Number n2)) →
       (∀ s1 s2, ¬(v1 = Value.String s1 ∧ v2 = Value.String s2)) →
        Interpreter.eval (Expr.Binary BinaryOperator.Plus l r)
          = Except.error (RtError.typeError "You can only add strings or numbers")) := by
  refine ⟨?_, ?_, ?_⟩
  · rintro n1 n2 rfl rfl
    simp [Interpreter.eval, hl, hr, eok_bind, epure_def]
  · rintro s1 s2 rfl rfl
    simp [Interpreter.eval, hl, hr, eok_bind, epure_def]
  · intro hn hs
    cases v1 <;> cases v2 <;>
      first
        | exact (hn _ _ ⟨rfl, rfl⟩).elim
        | exact (hs _ _ ⟨rfl, rfl⟩).elim
        | simp [Interpreter.eval, hl, hr, eok_bind, epure_def]

/-- Witness for C1 at concrete inputs: `1 + 2 = 3`, `"a" + "b" = "ab"`,
and `1 + "a"` is the type error. -/
theorem add_operand_cases_witness :
    Interpreter.eval (Expr.Binary BinaryOperator.Plus
        (Expr.Literal (Literal.Number (F64.finite 1)))
        (Expr.Literal (Literal.Number (F64.finite 2))))
      = Except.ok (Value.Number (F64.finite 3))
    ∧ Interpreter.eval (Expr.Binary BinaryOperator.Plus
        (Expr.Literal (Literal.String "a")) (Expr.Literal (Literal.String "b")))
      = Except.ok (Value.String "ab")
    ∧ Interpreter.eval (Expr.Binary BinaryOperator.Plus
        (Expr.Literal (Literal.Number (F64.finite 1))) (Expr.Literal (Literal.String "a")))
      = Except.error (RtError.typeError "You can only add strings or numbers") := by
  refine ⟨?_, ?_, ?_⟩
  · have h := (add_operand_cases (Expr.Literal (Literal.Number (F64.finite 1)))
      (Expr.Literal (Literal.Number (F64.finite 2)))
      (Value.Number (F64.finite 1)) (Value.Number (F64.finite 2)) rfl rfl).1
    have h3 : F64.add (F64.finite 1) (F64.finite 2) = F64.finite 3 := by
      simp [F64.add]; norm_num
    simpa [h3] using h _ _ rfl rfl
  · have h := (add_operand_cases (Expr.Literal (Literal.String "a"))
      (Expr.Literal (Literal.String "b"))
      (Value.String "a") (Value.String "b") rfl rfl).2.1
    simpa using h _ _ rfl rfl
  · have h := (add_operand_cases (Expr.Literal (Literal.Number (F64.finite 1)))
      (Expr.Literal (Literal.String "a"))
      (Value.Number (F64.finite 1)) (Value.String "a") rfl rfl).2.2
    exact h (by rintro n1 n2 ⟨-, h2⟩; cases h2) (by rintro s1 s2 ⟨h1, -⟩; cases h1)

/-- C2: if the operand evaluates to v, `Unary(LogicalNot, operand)` never
fails: it yields `Boolean true` exactly when v is Nil or `Boolean false`,
and `Boolean false` for every other value. -/
theorem logical_not_truthiness (e : Expr) (v : Value)
    (h : Interpreter.eval e = Except.ok v) :
    Interpreter.eval (Expr.Unary UnaryOperator.Not e)
      = Except.ok (Value.Boolean (!Interpreter.is_truthy v))
    ∧ ((!Interpreter.is_truthy v) = true ↔ v = Value.Nil ∨ v = Value.Boolean false) := by
  constructor
  · simp [Interpreter.eval, h, eok_bind, epure_def]
  · cases v <;> simp [Interpreter.is_truthy]

/-- Witness for C2 at concrete inputs: `!Nil = true`, `!false = true`,
`!0.0 = false`, `!"" = false`. -/
theorem logical_not_truthiness_witness :
    Interpreter.eval (Expr.Unary UnaryOperator.Not (Expr.Literal Literal.Nil))
      = Except.ok (Value.Boolean true)
    ∧ Interpreter.eval (Expr.Unary UnaryOperator.Not (Expr.Literal (Literal.Boolean false)))
      = Except.ok (Value.Boolean true)
    ∧ Interpreter.eval (Expr.Unary UnaryOperator.Not (Expr.Literal (Literal.Number (F64.finite 0))))
      = Except.ok (Value.Boolean false)
    ∧ Interpreter.eval (Expr.Unary UnaryOperator.Not (Expr.Literal (Literal.String "")))
      = Except.ok (Value.Boolean false) := by
  refine ⟨?_, ?_, ?_, ?_⟩
  · simpa using (logical_not_truthiness (Expr.Literal Literal.Nil) Value.Nil rfl).1
  · simpa using
      (logical_not_truthiness (Expr.Literal (Literal.Boolean false)) (Value.Boolean false) rfl).1
  · simpa [Interpreter.is_truthy] using
      (logical_not_truthiness (Expr.Literal (Literal.Number (F64.finite 0)))
        (Value.Number (F64.finite 0)) rfl).1
  · simpa [Interpreter.is_truthy] using
      (logical_not_truthiness (Expr.Literal (Literal.String "")) (Value.String "") rfl).1

/-- The two truthiness helpers agree. -/
theorem is_truthy_agree (v : Value) : Interpreter.is_truthy v = Intrepreter.is_truthy v := by
  cases v <;> rfl

/-- C9: the evaluators of `interpreter.rs` and `intrepreter.rs` are
extensionally equal: on every expression they return the same value or
fail with the same error. -/
theorem eval_agree (e : Expr) : Interpreter.eval e = Intrepreter.eval e := by
  induction e with
  | Binary op l r ihl ihr =>
      simp [Interpreter.eval, Intrepreter.eval, ihl, ihr]
  | Unary op u ih =>
      simp [Interpreter.eval, Intrepreter.eval, ih, is_truthy_agree]
  | Literal l =>
      simp [Interpreter.eval, Intrepreter.eval]
  | Grouping g ih =>
      simp [Interpreter.eval, Intrepreter.eval, ih]

/-- C10: `Binary(Equal, Number NaN, Number NaN)` evaluates to
`Boolean false` (Value equality follows IEEE-754 on the f64 payload), and
Equal is total: whenever both operands evaluate, it returns the Boolean
of the derived `PartialEq` comparison and never fails. -/
theorem equal_nan_not_reflexive :
    Interpreter.eval (Expr.Binary BinaryOperator.EqualEqual
        (Expr.Literal (Literal.Number F64.nan)) (Expr.Literal (Literal.Number F64.nan)))
      = Except.ok (Value.Boolean false)
    ∧ ∀ l r v1 v2, Interpreter.eval l = Except.ok v1 → Interpreter.eval r = Except.ok v2 →
        Interpreter.eval (Expr.Binary BinaryOperator.EqualEqual l r)
          = Except.ok (Value.Boolean (valueEq v1 v2)) := by
  constructor
  · rfl
  · intro l r v1 v2 hl hr
    simp [Interpreter.eval, hl, hr, eok_bind, epure_def]

/-- Witness for C10's quantified totality part at concrete inputs:
`1 == "a"` evaluates (to false) rather than failing. -/
theorem equal_nan_not_reflexive_witness :
    Interpreter.eval (Expr.Binary BinaryOperator.EqualEqual
        (Expr.Literal (Literal.Number (F64.finite 1))) (Expr.Literal (Literal.String "a")))
      = Except.ok (Value.Boolean false) := by
  simpa [valueEq] using equal_nan_not_reflexive.2
    (Expr.Literal (Literal.Number (F64.finite 1))) (Expr.Literal (Literal.String "a"))
    (Value.Number (F64.finite 1)) (Value.String "a") rfl rfl

/-- Map on a successful `Except` applies the function. -/
theorem emap_ok {α β ε : Type} (a : α) (f : α → β) :
    (Except.ok a : Except ε α).map f = Except.ok (f a) := rfl

/-- C3 (code bug): scanning terminated string literals.  The payload is
exactly the text strictly between the quotes, as claimed — but the line
counter is NOT incremented per embedded newline: `Scanner::string`'s
condition `if self.peek() != '\n'` increments the line for every
NON-newline character of the literal.  Scanning `"ab"` (no newline, start
line 1) ends on line 3 instead of 1, and scanning `"a\nb"` (one newline)
also ends on line 3 instead of 2. -/
theorem string_line_counter_bug :
    scanTokens "\"ab\"".toList
      = Except.ok [⟨TokenKind.StringLiteral "ab", 3, 4⟩, ⟨TokenKind.EOF, 3, 4⟩]
    ∧ scanTokens "\"a\nb\"".toList
      = Except.ok [⟨TokenKind.StringLiteral "a\nb", 3, 5⟩, ⟨TokenKind.EOF, 3, 5⟩] :=
  ⟨rfl, rfl⟩

/-- C8 (counterexample to "fourteen"): the operator source yields 13
tokens in total — the twelve operator tokens plus one EOF — so it does
not consist of fourteen operator tokens followed by EOF (which would be
15 tokens). -/
theorem operators_source_not_fourteen :
    (scanTokens "! != - - = == < <= > >= */".toList).map (fun ts => ts.length)
      = Except.ok 13
    ∧ ¬ (∃ ops eof, scanTokens "! != - - = == < <= > >= */".toList
          = Except.ok (ops ++ [eof]) ∧ ops.length = 14 ∧ eof.kind = TokenKind.EOF) := by
  refine ⟨rfl, ?_⟩
  rintro ⟨ops, eof, h, hlen, -⟩
  have h13 : (scanTokens "! != - - = == < <= > >= */".toList).map (fun ts => ts.length)
      = Except.ok 13 := rfl
  rw [h, emap_ok] at h13
  have : (ops ++ [eof]).length = 13 := by injection h13
  simp [hlen] at this

/-- C8 (amended): the operator source `"! != - - = == < <= > >= */"`
yields exactly the twelve operator tokens Bang, BangEqual, Minus, Minus,
Equal, EqualEqual, Less, LessEqual, Greater, GreaterEqual, Star, Slash —
in that order — followed by exactly one EOF token, with no tokens for the
intervening spaces. -/
theorem operators_source_tokens :
    (scanTokens "! != - - = == < <= > >= */".toList).map (List.map Token.kind)
      = Except.ok [TokenKind.Bang, TokenKind.BangEqual, TokenKind.Minus, TokenKind.Minus,
          TokenKind.Equal, TokenKind.EqualEqual, TokenKind.Less, TokenKind.LessEqual,
          TokenKind.Greater, TokenKind.GreaterEqual, TokenKind.Star, TokenKind.Slash,
          TokenKind.EOF] := rfl

/-- `Scanner::string` fails with the unterminated-string error when no
closing quote remains in the source. -/
theorem string_unterminated (st : ScanState)
    (hno : ∀ c ∈ st.source.drop st.current, c ≠ '"') :
    string st = Except.error (ScanError.unterminatedString
      (st.line + ((st.source.drop st.current).filter (fun ch => !decide (ch = '\n'))).length)) := by
  have htake : List.takeWhile (fun ch => !decide (ch = '"')) (st.source.drop st.current)
      = st.source.drop st.current :=
    List.takeWhile_eq_self_iff.2 (fun c hc => by simpa using hno c hc)
  unfold string
  simp [htake]

/-- C6: whenever the scan reaches an opening `"` with no closing `"`
anywhere in the remaining source, the whole scan fails with the
unterminated-string ScanError — no token sequence is returned. -/
theorem unterminated_string_fails (fuel : Nat) (st : ScanState)
    (hq : st.source.get? st.current = some '"')
    (hno : ∀ c ∈ st.source.drop (st.current + 1), c ≠ '"')
    (hf : 1 ≤ fuel) :
    ∃ ln, scanLoop fuel st = Except.error (ScanError.unterminatedString ln) := by
  obtain ⟨f, rfl⟩ : ∃ f, fuel = f + 1 := ⟨fuel - 1, by omega⟩
  have hlt : st.current < st.source.length := (List.get?_eq_some.1 hq).1
  refine ⟨st.line + ((st.source.drop (st.current + 1)).filter
      (fun ch => !decide (ch = '\n'))).length, ?_⟩
  unfold scanLoop
  rw [if_neg (by simp; omega)]
  have hstr := string_unterminated { st with start := st.current, current := st.current + 1 }
    (by simpa using hno)
  have hstep : scanToken { st with start := st.current }
      = string { st with start := st.current, current := st.current + 1 } := by
    unfold scanToken
    simp only [hq]
  rw [hstep, hstr]
  rfl

/-- Witness for C6: source `"abc` — an opening quote never closed. -/
theorem unterminated_string_fails_witness :
    ∃ ln, scanLoop 5 { source := "\"abc".toList, tokens := [], start := 0, current := 0, line := 1 }
      = Except.error (ScanError.unterminatedString ln) :=
  unterminated_string_fails 5
    { source := "\"abc".toList, tokens := [], start := 0, current := 0, line := 1 }
    (by decide) (by decide) (by decide)

/-- The keyword table never produces an EOF token. -/
theorem keywordToken_ne_eof (text : String) (line pos : Nat) :
    (keywordToken text line pos).kind ≠ TokenKind.EOF := by
  unfold keywordToken
  by_cases h1 : text = "and"
  · rw [if_pos h1]; simp
  rw [if_neg h1]
  by_cases h2 : text = "class"
  · rw [if_pos h2]; simp
  rw [if_neg h2]
  by_cases h3 : text = "else"
  · rw [if_pos h3]; simp
  rw [if_neg h3]
  by_cases h4 : text = "false"
  · rw [if_pos h4]; simp
  rw [if_neg h4]
  by_cases h5 : text = "for"
  · rw [if_pos h5]; simp
  rw [if_neg h5]
  by_cases h6 : text = "fun"
  · rw [if_pos h6]; simp
  rw [if_neg h6]
  by_cases h7 : text = "if"
  · rw [if_pos h7]; simp
  rw [if_neg h7]
  by_cases h8 : text = "nil"
  · rw [if_pos h8]; simp
  rw [if_neg h8]
  by_cases h9 : text = "or"
  · rw [if_pos h9]; simp
  rw [if_neg h9]
  by_cases h10 : text = "print"
  · rw [if_pos h10]; simp
  rw [if_neg h10]
  by_cases h11 : text = "return"
  · rw [if_pos h11]; simp
  rw [if_neg h11]
  by_cases h12 : text = "super"
  · rw [if_pos h12]; simp
  rw [if_neg h12]
  by_cases h13 : text = "this"
  · rw [if_pos h13]; simp
  rw [if_neg h13]
  by_cases h14 : text = "true"
  · rw [if_pos h14]; simp
  rw [if_neg h14]
  by_cases h15 : text = "var"
  · rw [if_pos h15]; simp
  rw [if_neg h15]
  by_cases h16 : text = "while"
  · rw [if_pos h16]; simp
  rw [if_neg h16]
  simp

/-- `Scanner::add_token` appends exactly its (non-EOF) argument. -/
theorem addToken_append (st : ScanState) (t : Token) (hk : t.kind ≠ TokenKind.EOF) :
    ∃ ts, (addToken st t).tokens = st.tokens ++ ts ∧ ∀ u ∈ ts, u.kind ≠ TokenKind.EOF :=
  ⟨[t], rfl, by simpa using hk⟩

/-- `Scanner::string` on success appends exactly one StringLiteral token. -/
theorem string_tokens (st st' : ScanState) (h : string st = Except.ok st') :
    ∃ ts, st'.tokens = st.tokens ++ ts ∧ ∀ t ∈ ts, t.kind ≠ TokenKind.EOF := by
  unfold string at h
  dsimp only at h
  split at h
  · cases h
  · cases h
    exact addToken_append _ _ (by simp)

/-- `Scanner::number` appends exactly one NumberLiteral token. -/
theorem number_tokens (st : ScanState) :
    ∃ ts, (number st).tokens = st.tokens ++ ts ∧ ∀ t ∈ ts, t.kind ≠ TokenKind.EOF := by
  unfold number
  exact addToken_append _ _ (by simp)

/-- `Scanner::identifier` appends exactly one keyword or Identifier
token. -/
theorem identifier_tokens (st : ScanState) :
    ∃ ts, (identifier st).tokens = st.tokens ++ ts ∧ ∀ t ∈ ts, t.kind ≠ TokenKind.EOF := by
  unfold identifier
  exact addToken_append _ _ (keywordToken_ne_eof _ _ _)

/-- `Scanner::scan_token` only appends tokens, and never appends an EOF
token. -/
theorem scanToken_tokens (st st' : ScanState) (h : scanToken st = Except.ok st') :
    ∃ ts, st'.tokens = st.tokens ++ ts ∧ ∀ t ∈ ts, t.kind ≠ TokenKind.EOF := by
  unfold scanToken match_char at h
  dsimp only at h
  split at h
  · cases h
  split at h <;>
    (try (split at h)) <;>
    (try (split at h)) <;>
    (try (split at h)) <;>
    first
      | (cases h <;>
           first
             | (obtain ⟨ts, hts, hne⟩ :=
                  identifier_tokens ({ st with current := st.current + 1 } : ScanState)
                exact ⟨ts, by simpa using hts, hne⟩)
             | (refine addToken_append _ _ ?_; simp)
             | (refine ⟨[], ?_, ?_⟩ <;> simp)
             | (obtain ⟨ts, hts, hne⟩ :=
                  number_tokens ({ st with current := st.current + 1 } : ScanState)
                exact ⟨ts, by simpa using hts, hne⟩))
      | (obtain ⟨ts, hts, hne⟩ := string_tokens _ _ h
         exact ⟨ts, by simpa using hts, hne⟩)

/-- On success the scan loop of `scan_tokens`, started with no EOF token
accumulated, returns a sequence with exactly one EOF token, at the end. -/
theorem scanLoop_eof (fuel : Nat) : ∀ (st : ScanState) (ts : List Token),
    (∀ t ∈ st.tokens, t.kind ≠ TokenKind.EOF) →
    scanLoop fuel st = Except.ok ts →
    countEOF ts = 1 ∧ ∃ t, ts.getLast? = some t ∧ t.kind = TokenKind.EOF := by
  induction fuel with
  | zero => intro st ts _ h; cases h
  | succ f ih =>
      intro st ts hinv h
      unfold scanLoop at h
      split at h
      · cases h
        constructor
        · unfold countEOF
          rw [List.countP_append]
          rw [List.countP_eq_zero.2 (by intro t ht; simpa using hinv t ht)]
          rfl
        · exact ⟨_, List.getLast?_concat _, rfl⟩
      · cases hstep : scanToken { st with start := st.current } with
        | error e => rw [hstep] at h; cases h
        | ok st2 =>
            rw [hstep] at h
            obtain ⟨new, hnew, hne⟩ := scanToken_tokens _ _ hstep
            refine ih st2 ts ?_ h
            intro t ht
            rw [hnew] at ht
            rcases List.mem_append.1 ht with h1 | h2
            · exact hinv t (by simpa using h1)
            · exact hne t h2

/-- C7: on every source text on which scanning succeeds, the returned
token sequence contains exactly one EOF token, and it is the last
element. -/
theorem scan_ends_with_one_eof (source : List Char) (ts : List Token)
    (h : scanTokens source = Except.ok ts) :
    countEOF ts = 1 ∧ ∃ t, ts.getLast? = some t ∧ t.kind = TokenKind.EOF :=
  scanLoop_eof (source.length + 1) _ ts (by simp) h

/-- Witness for C7 on the source `(){},-*;` (the repository's own
single-character-token test input). -/
theorem scan_ends_with_one_eof_witness :
    ∃ ts, scanTokens "(){},-*;".toList = Except.ok ts
      ∧ countEOF ts = 1 ∧ ∃ t, ts.getLast? = some t ∧ t.kind = TokenKind.EOF :=
  ⟨_, rfl, scan_ends_with_one_eof ("(){},-*;".toList) _ rfl⟩

/-! Parser evaluation lemmas: `tkEq` against each payload-free kind is
plain decidable equality. -/

@[simp] theorem tkEq_Bang (a : TokenKind) :
    tkEq a TokenKind.Bang = decide (a = TokenKind.Bang) := by
  cases a <;> rfl

@[simp] theorem tkEq_BangEqual (a : TokenKind) :
    tkEq a TokenKind.BangEqual = decide (a = TokenKind.BangEqual) := by
  cases a <;> rfl

@[simp] theorem tkEq_Equal (a : TokenKind) :
    tkEq a TokenKind.Equal = decide (a = TokenKind.Equal) := by
  cases a <;> rfl

@[simp] theorem tkEq_EqualEqual (a : TokenKind) :
    tkEq a TokenKind.EqualEqual = decide (a = TokenKind.EqualEqual) := by
  cases a <;> rfl

@[simp] theorem tkEq_Greater (a : TokenKind) :
    tkEq a TokenKind.Greater = decide (a = TokenKind.Greater) := by
  cases a <;> rfl

@[simp] theorem tkEq_GreaterEqual (a : TokenKind) :
    tkEq a TokenKind.GreaterEqual = decide (a = TokenKind.GreaterEqual) := by
  cases a <;> rfl

@[simp] theorem tkEq_Less (a : TokenKind) :
    tkEq a TokenKind.Less = decide (a = TokenKind.Less) := by
  cases a <;> rfl

@[simp] theorem tkEq_LessEqual (a : TokenKind) :
    tkEq a TokenKind.LessEqual = decide (a = TokenKind.LessEqual) := by
  cases a <;> rfl

@[simp] theorem tkEq_LeftParen (a : TokenKind) :
    tkEq a TokenKind.LeftParen = decide (a = TokenKind.LeftParen) := by
  cases a <;> rfl

@[simp] theorem tkEq_RightParen (a : TokenKind) :
    tkEq a TokenKind.RightParen = decide (a = TokenKind.RightParen) := by
  cases a <;> rfl

@[simp] theorem tkEq_Minus (a : TokenKind) :
    tkEq a TokenKind.Minus = decide (a = TokenKind.Minus) := by
  cases a <;> rfl

@[simp] theorem tkEq_Plus (a : TokenKind) :
    tkEq a TokenKind.Plus = decide (a = TokenKind.Plus) := by
  cases a <;> rfl

@[simp] theorem tkEq_Semicolon (a : TokenKind) :
    tkEq a TokenKind.Semicolon = decide (a = TokenKind.Semicolon) := by
  cases a <;> rfl

@[simp] theorem tkEq_Slash (a : TokenKind) :
    tkEq a TokenKind.Slash = decide (a = TokenKind.Slash) := by
  cases a <;> rfl

@[simp] theorem tkEq_Star (a : TokenKind) :
    tkEq a TokenKind.Star = decide (a = TokenKind.Star) := by
  cases a <;> rfl

@[simp] theorem tkEq_False (a : TokenKind) :
    tkEq a TokenKind.False = decide (a = TokenKind.False) := by
  cases a <;> rfl

@[simp] theorem tkEq_True (a : TokenKind) :
    tkEq a TokenKind.True = decide (a = TokenKind.True) := by
  cases a <;> rfl

@[simp] theorem tkEq_Nil (a : TokenKind) :
    tkEq a TokenKind.Nil = decide (a = TokenKind.Nil) := by
  cases a <;> rfl

@[simp] theorem tkEq_Var (a : TokenKind) :
    tkEq a TokenKind.Var = decide (a = TokenKind.Var) := by
  cases a <;> rfl

@[simp] theorem tkEq_Print (a : TokenKind) :
    tkEq a TokenKind.Print = decide (a = TokenKind.Print) := by
  cases a <;> rfl

@[simp] theorem tkEq_EOF (a : TokenKind) :
    tkEq a TokenKind.EOF = decide (a = TokenKind.EOF) := by
  cases a <;> rfl

/-- `Parser::check` is false when the current token is neither EOF nor the
probed kind. -/
theorem check_false (ts : List Token) (c : Nat) (u : Token) (k : TokenKind)
    (hget : ts.get? c = some u) (hne : u.kind ≠ k)
    (hdec : tkEq u.kind k = decide (u.kind = k)) :
    Parser.check ⟨ts, c⟩ k = Except.ok false := by
  rw [List.get?_eq_getElem?] at hget
  by_cases he : u.kind = TokenKind.EOF
  · simp [Parser.check, Parser.is_at_end, Parser.peekT, hget, he, eok_bind, epure_def]
  · simp [Parser.check, Parser.is_at_end, Parser.peekT, hget, he, hne, hdec,
      eok_bind, epure_def]

/-- `Parser::check` is true when the current token has the probed
(non-EOF) kind. -/
theorem check_true (ts : List Token) (c : Nat) (u : Token) (k : TokenKind)
    (hget : ts.get? c = some u) (hk : u.kind = k) (hne : k ≠ TokenKind.EOF)
    (hdec : tkEq u.kind k = decide (u.kind = k)) :
    Parser.check ⟨ts, c⟩ k = Except.ok true := by
  rw [List.get?_eq_getElem?] at hget
  subst hk
  simp [Parser.check, Parser.is_at_end, Parser.peekT, hget, hne, hdec,
    eok_bind, epure_def]

/-- `Parser::advance` from a non-EOF token steps the cursor and returns
that token. -/
theorem advance_eval (ts : List Token) (c : Nat) (u : Token)
    (hget : ts.get? c = some u) (hne : u.kind ≠ TokenKind.EOF) :
    Parser.advance ⟨ts, c⟩ = Except.ok (u, ⟨ts, c + 1⟩) := by
  rw [List.get?_eq_getElem?] at hget
  simp [Parser.advance, Parser.is_at_end, Parser.peekT, Parser.previousT, hget, hne,
    eok_bind, epure_def]

/-- `Parser::previous` after one `advance` step returns the consumed
token. -/
theorem previousT_eval (ts : List Token) (c : Nat) (u : Token)
    (hget : ts.get? c = some u) :
    Parser.previousT ⟨ts, c + 1⟩ = Except.ok u := by
  rw [List.get?_eq_getElem?] at hget
  simp [Parser.previousT, hget]

/-- A literal token is none of the fixed operator/punctuation kinds. -/
theorem isLitTok_ne (t : Token) (hlit : isLitTok t.kind) (k : TokenKind)
    (hk : k ≠ TokenKind.False ∧ k ≠ TokenKind.True ∧ k ≠ TokenKind.Nil
      ∧ (∀ n, k ≠ TokenKind.NumberLiteral n) ∧ (∀ s, k ≠ TokenKind.StringLiteral s)) :
    t.kind ≠ k := by
  rcases hlit with ⟨n, h⟩ | ⟨s, h⟩ | h | h | h <;> rw [h] <;>
    first
      | exact fun hcontra => hk.2.2.2.1 n hcontra.symm
      | exact fun hcontra => hk.2.2.2.2 s hcontra.symm
      | exact fun hcontra => hk.2.1 hcontra.symm
      | exact fun hcontra => hk.1 hcontra.symm
      | exact fun hcontra => hk.2.2.1 hcontra.symm

/-- `Parser::primary` at a literal token consumes it and yields the
corresponding literal expression. -/
theorem primary_lit (f : Nat) (ts : List Token) (c : Nat) (t : Token)
    (hget : ts.get? c = some t) (hlit : isLitTok t.kind) :
    Parser.primaryP (f + 1) ⟨ts, c⟩ = Except.ok (litExpr t.kind, ⟨ts, c + 1⟩) := by
  have hadv : Parser.advance ⟨ts, c⟩ = Except.ok (t, ⟨ts, c + 1⟩) :=
    advance_eval ts c t hget
      (by rcases hlit with ⟨n, hk⟩ | ⟨s, hk⟩ | hk | hk | hk <;> simp [hk])
  have hgetE := hget
  rw [List.get?_eq_getElem?] at hgetE
  rcases hlit with ⟨n, hk⟩ | ⟨s, hk⟩ | hk | hk | hk
  · have hc1 := check_false ts c t TokenKind.False hget (by simp [hk]) (tkEq_False _)
    have hc2 := check_false ts c t TokenKind.True hget (by simp [hk]) (tkEq_True _)
    have hc3 := check_false ts c t TokenKind.Nil hget (by simp [hk]) (tkEq_Nil _)
    simp [Parser.primaryP, Parser.match_tokens, Parser.peekT, hc1, hc2, hc3, hgetE, hk,
      hadv, litExpr, eok_bind, epure_def]
  · have hc1 := check_false ts c t TokenKind.False hget (by simp [hk]) (tkEq_False _)
    have hc2 := check_false ts c t TokenKind.True hget (by simp [hk]) (tkEq_True _)
    have hc3 := check_false ts c t TokenKind.Nil hget (by simp [hk]) (tkEq_Nil _)
    simp [Parser.primaryP, Parser.match_tokens, Parser.peekT, hc1, hc2, hc3, hgetE, hk,
      hadv, litExpr, eok_bind, epure_def]
  · have hc1 := check_true ts c t TokenKind.True hget hk (by simp) (tkEq_True _)
    have hc2 := check_false ts c t TokenKind.False hget (by simp [hk]) (tkEq_False _)
    simp [Parser.primaryP, Parser.match_tokens, hc1, hc2, hadv, hk, litExpr,
      eok_bind, epure_def]
  · have hc1 := check_true ts c t TokenKind.False hget hk (by simp) (tkEq_False _)
    simp [Parser.primaryP, Parser.match_tokens, hc1, hadv, hk, litExpr,
      eok_bind, epure_def]
  · have hc1 := check_false ts c t TokenKind.False hget (by simp [hk]) (tkEq_False _)
    have hc2 := check_false ts c t TokenKind.True hget (by simp [hk]) (tkEq_True _)
    have hc3 := check_true ts c t TokenKind.Nil hget hk (by simp) (tkEq_Nil _)
    simp [Parser.primaryP, Parser.match_tokens, hc1, hc2, hc3, hadv, hk, litExpr,
      eok_bind, epure_def]

/-- `Parser::unary` at a literal token falls through to `primary`. -/
theorem unary_lit (f : Nat) (ts : List Token) (c : Nat) (t : Token)
    (hget : ts.get? c = some t) (hlit : isLitTok t.kind) :
    Parser.unaryP (f + 2) ⟨ts, c⟩ = Except.ok (litExpr t.kind, ⟨ts, c + 1⟩) := by
  have hb : t.kind ≠ TokenKind.Bang := isLitTok_ne t hlit _ (by simp)
  have hm : t.kind ≠ TokenKind.Minus := isLitTok_ne t hlit _ (by simp)
  have hc1 := check_false ts c t TokenKind.Bang hget hb (tkEq_Bang _)
  have hc2 := check_false ts c t TokenKind.Minus hget hm (tkEq_Minus _)
  have hp := primary_lit f ts c t hget hlit
  show Parser.unaryP (f + 1 + 1) ⟨ts, c⟩ = _
  simp [Parser.unaryP, Parser.match_tokens, hc1, hc2, hp, eok_bind, epure_def]

/-- The `factor` loop does not start when the current token is neither `/`
nor `*`. -/
theorem factorLoop_stop (f : Nat) (e : Expr) (ts : List Token) (c : Nat) (u : Token)
    (hget : ts.get? c = some u)
    (h1 : u.kind ≠ TokenKind.Slash) (h2 : u.kind ≠ TokenKind.Star) :
    Parser.factorLoopP (f + 1) e ⟨ts, c⟩ = Except.ok (e, ⟨ts, c⟩) := by
  have hc1 := check_false ts c u TokenKind.Slash hget h1 (tkEq_Slash _)
  have hc2 := check_false ts c u TokenKind.Star hget h2 (tkEq_Star _)
  simp [Parser.factorLoopP, Parser.match_tokens, hc1, hc2, eok_bind, epure_def]

/-- The `term` loop does not start when the current token is neither `-`
nor `+`. -/
theorem termLoop_stop (f : Nat) (e : Expr) (ts : List Token) (c : Nat) (u : Token)
    (hget : ts.get? c = some u)
    (h1 : u.kind ≠ TokenKind.Minus) (h2 : u.kind ≠ TokenKind.Plus) :
    Parser.termLoopP (f + 1) e ⟨ts, c⟩ = Except.ok (e, ⟨ts, c⟩) := by
  have hc1 := check_false ts c u TokenKind.Minus hget h1 (tkEq_Minus _)
  have hc2 := check_false ts c u TokenKind.Plus hget h2 (tkEq_Plus _)
  simp [Parser.termLoopP, Parser.match_tokens, hc1, hc2, eok_bind, epure_def]

/-- The `comparison` loop does not start when the current token is none of
the four relational operators. -/
theorem comparisonLoop_stop (f : Nat) (e : Expr) (ts : List Token) (c : Nat) (u : Token)
    (hget : ts.get? c = some u)
    (h1 : u.kind ≠ TokenKind.Greater) (h2 : u.kind ≠ TokenKind.GreaterEqual)
    (h3 : u.kind ≠ TokenKind.Less) (h4 : u.kind ≠ TokenKind.LessEqual) :
    Parser.comparisonLoopP (f + 1) e ⟨ts, c⟩ = Except.ok (e, ⟨ts, c⟩) := by
  have hc1 := check_false ts c u TokenKind.Greater hget h1 (tkEq_Greater _)
  have hc2 := check_false ts c u TokenKind.GreaterEqual hget h2 (tkEq_GreaterEqual _)
  have hc3 := check_false ts c u TokenKind.Less hget h3 (tkEq_Less _)
  have hc4 := check_false ts c u TokenKind.LessEqual hget h4 (tkEq_LessEqual _)
  simp [Parser.comparisonLoopP, Parser.match_tokens, hc1, hc2, hc3, hc4,
    eok_bind, epure_def]

/-- The `equality` loop does not start when the current token is neither
`!=` nor `==`. -/
theorem equalityLoop_stop (f : Nat) (e : Expr) (ts : List Token) (c : Nat) (u : Token)
    (hget : ts.get? c = some u)
    (h1 : u.kind ≠ TokenKind.BangEqual) (h2 : u.kind ≠ TokenKind.EqualEqual) :
    Parser.equalityLoopP (f + 1) e ⟨ts, c⟩ = Except.ok (e, ⟨ts, c⟩) := by
  have hc1 := check_false ts c u TokenKind.BangEqual hget h1 (tkEq_BangEqual _)
  have hc2 := check_false ts c u TokenKind.EqualEqual hget h2 (tkEq_EqualEqual _)
  simp [Parser.equalityLoopP, Parser.match_tokens, hc1, hc2, eok_bind, epure_def]

/-- `Parser::factor` at a literal token followed by a non-`/ *` token. -/
theorem factor_lit (f : Nat) (ts : List Token) (c : Nat) (t u : Token)
    (hget : ts.get? c = some t) (hlit : isLitTok t.kind)
    (hnext : ts.get? (c + 1) = some u)
    (h1 : u.kind ≠ TokenKind.Slash) (h2 : u.kind ≠ TokenKind.Star) :
    Parser.factorP (f + 3) ⟨ts, c⟩ = Except.ok (litExpr t.kind, ⟨ts, c + 1⟩) := by
  have hu := unary_lit f ts c t hget hlit
  have hstop := factorLoop_stop (f + 1) (litExpr t.kind) ts (c + 1) u hnext h1 h2
  show Parser.factorP (f + 2 + 1) ⟨ts, c⟩ = _
  simp [Parser.factorP, hu, hstop, eok_bind]

/-- `Parser::term` at a literal token followed by a token of no level at or
below `term`. -/
theorem term_lit (f : Nat) (ts : List Token) (c : Nat) (t u : Token)
    (hget : ts.get? c = some t) (hlit : isLitTok t.kind)
    (hnext : ts.get? (c + 1) = some u)
    (h1 : u.kind ≠ TokenKind.Slash) (h2 : u.kind ≠ TokenKind.Star)
    (h3 : u.kind ≠ TokenKind.Minus) (h4 : u.kind ≠ TokenKind.Plus) :
    Parser.termP (f + 4) ⟨ts, c⟩ = Except.ok (litExpr t.kind, ⟨ts, c + 1⟩) := by
  have hf := factor_lit f ts c t u hget hlit hnext h1 h2
  have hstop := termLoop_stop (f + 2) (litExpr t.kind) ts (c + 1) u hnext h3 h4
  show Parser.termP (f + 3 + 1) ⟨ts, c⟩ = _
  simp [Parser.termP, hf, hstop, eok_bind]

/-- `Parser::comparison` at a literal token followed by a token of no
level at or below `comparison`. -/
theorem comparison_lit (f : Nat) (ts : List Token) (c : Nat) (t u : Token)
    (hget : ts.get? c = some t) (hlit : isLitTok t.kind)
    (hnext : ts.get? (c + 1) = some u)
    (h1 : u.kind ≠ TokenKind.Slash) (h2 : u.kind ≠ TokenKind.Star)
    (h3 : u.kind ≠ TokenKind.Minus) (h4 : u.kind ≠ TokenKind.Plus)
    (h5 : u.kind ≠ TokenKind.Greater) (h6 : u.kind ≠ TokenKind.GreaterEqual)
    (h7 : u.kind ≠ TokenKind.Less) (h8 : u.kind ≠ TokenKind.LessEqual) :
    Parser.comparisonP (f + 5) ⟨ts, c⟩ = Except.ok (litExpr t.kind, ⟨ts, c + 1⟩) := by
  have ht := term_lit f ts c t u hget hlit hnext h1 h2 h3 h4
  have hstop := comparisonLoop_stop (f + 3) (litExpr t.kind) ts (c + 1) u hnext h5 h6 h7 h8
  show Parser.comparisonP (f + 4 + 1) ⟨ts, c⟩ = _
  simp [Parser.comparisonP, ht, hstop, eok_bind]

/-- `Parser::check` at a non-EOF token evaluates to the kind comparison. -/
theorem check_eval (ts : List Token) (c : Nat) (u : Token) (k : TokenKind)
    (hget : ts.get? c = some u) (hne : u.kind ≠ TokenKind.EOF)
    (hdec : tkEq u.kind k = decide (u.kind = k)) :
    Parser.check ⟨ts, c⟩ k = Except.ok (decide (u.kind = k)) := by
  rw [List.get?_eq_getElem?] at hget
  simp [Parser.check, Parser.is_at_end, Parser.peekT, hget, hne, hdec, eok_bind, epure_def]

/-- One iteration of the `factor` loop: consume a `/` or `*` operator and
its right operand, folding them into a Binary node on the left. -/
theorem factorLoop_step (f : Nat) (e rhs : Expr) (ts : List Token) (c : Nat) (o : Token)
    (st' : PState) (hget : ts.get? c = some o)
    (ho : o.kind = TokenKind.Slash ∨ o.kind = TokenKind.Star)
    (hoperand : Parser.unaryP f ⟨ts, c + 1⟩ = Except.ok (rhs, st')) :
    Parser.factorLoopP (f + 1) e ⟨ts, c⟩
      = Parser.factorLoopP f (Expr.Binary (binOp o.kind) e rhs) st' := by
  have hne : o.kind ≠ TokenKind.EOF := by rcases ho with h | h <;> simp [h]
  have hckS := check_eval ts c o TokenKind.Slash hget hne (tkEq_Slash _)
  have hckT := check_eval ts c o TokenKind.Star hget hne (tkEq_Star _)
  have hadv := advance_eval ts c o hget hne
  have hprev := previousT_eval ts c o hget
  rcases ho with hk | hk <;>
    simp [Parser.factorLoopP, Parser.match_tokens, hckS, hckT, hadv, hprev, hoperand,
      hk, binOp, eok_bind, epure_def]

/-- One iteration of the `term` loop: consume a `-` or `+` operator and
its right operand, folding them into a Binary node on the left. -/
theorem termLoop_step (f : Nat) (e rhs : Expr) (ts : List Token) (c : Nat) (o : Token)
    (st' : PState) (hget : ts.get? c = some o)
    (ho : o.kind = TokenKind.Minus ∨ o.kind = TokenKind.Plus)
    (hoperand : Parser.factorP f ⟨ts, c + 1⟩ = Except.ok (rhs, st')) :
    Parser.termLoopP (f + 1) e ⟨ts, c⟩
      = Parser.termLoopP f (Expr.Binary (binOp o.kind) e rhs) st' := by
  have hne : o.kind ≠ TokenKind.EOF := by rcases ho with h | h <;> simp [h]
  have hckM := check_eval ts c o TokenKind.Minus hget hne (tkEq_Minus _)
  have hckP := check_eval ts c o TokenKind.Plus hget hne (tkEq_Plus _)
  have hadv := advance_eval ts c o hget hne
  have hprev := previousT_eval ts c o hget
  rcases ho with hk | hk <;>
    simp [Parser.termLoopP, Parser.match_tokens, hckM, hckP, hadv, hprev, hoperand,
      hk, binOp, eok_bind, epure_def]

/-- One iteration of the `comparison` loop: consume a relational operator
and its right operand, folding them into a Binary node on the left. -/
theorem comparisonLoop_step (f : Nat) (e rhs : Expr) (ts : List Token) (c : Nat) (o : Token)
    (st' : PState) (hget : ts.get? c = some o)
    (ho : o.kind = TokenKind.Greater ∨ o.kind = TokenKind.GreaterEqual
      ∨ o.kind = TokenKind.Less ∨ o.kind = TokenKind.LessEqual)
    (hoperand : Parser.termP f ⟨ts, c + 1⟩ = Except.ok (rhs, st')) :
    Parser.comparisonLoopP (f + 1) e ⟨ts, c⟩
      = Parser.comparisonLoopP f (Expr.Binary (binOp o.kind) e rhs) st' := by
  have hne : o.kind ≠ TokenKind.EOF := by rcases ho with h | h | h | h <;> simp [h]
  have hckG := check_eval ts c o TokenKind.Greater hget hne (tkEq_Greater _)
  have hckGE := check_eval ts c o TokenKind.GreaterEqual hget hne (tkEq_GreaterEqual _)
  have hckL := check_eval ts c o TokenKind.Less hget hne (tkEq_Less _)
  have hckLE := check_eval ts c o TokenKind.LessEqual hget hne (tkEq_LessEqual _)
  have hadv := advance_eval ts c o hget hne
  have hprev := previousT_eval ts c o hget
  rcases ho with hk | hk | hk | hk <;>
    simp [Parser.comparisonLoopP, Parser.match_tokens, hckG, hckGE, hckL, hckLE,
      hadv, hprev, hoperand, hk, binOp, eok_bind, epure_def]

/-- One iteration of the `equality` loop: consume a `!=` or `==` operator
and its right operand, folding them into a Binary node on the left. -/
theorem equalityLoop_step (f : Nat) (e rhs : Expr) (ts : List Token) (c : Nat) (o : Token)
    (st' : PState) (hget : ts.get? c = some o)
    (ho : o.kind = TokenKind.BangEqual ∨ o.kind = TokenKind.EqualEqual)
    (hoperand : Parser.comparisonP f ⟨ts, c + 1⟩ = Except.ok (rhs, st')) :
    Parser.equalityLoopP (f + 1) e ⟨ts, c⟩
      = Parser.equalityLoopP f (Expr.Binary (binOp o.kind) e rhs) st' := by
  have hne : o.kind ≠ TokenKind.EOF := by rcases ho with h | h <;> simp [h]
  have hckB := check_eval ts c o TokenKind.BangEqual hget hne (tkEq_BangEqual _)
  have hckE := check_eval ts c o TokenKind.EqualEqual hget hne (tkEq_EqualEqual _)
  have hadv := advance_eval ts c o hget hne
  have hprev := previousT_eval ts c o hget
  rcases ho with hk | hk <;>
    simp [Parser.equalityLoopP, Parser.match_tokens, hckB, hckE, hadv, hprev, hoperand,
      hk, binOp, eok_bind, epure_def]

/-- Three literal operands chained by two `factor`-level operators parse
left-associatively at the `factor` level. -/
theorem factorChain (f : Nat) (a o1 b o2 c' e : Token)
    (ha : isLitTok a.kind) (hb : isLitTok b.kind) (hc : isLitTok c'.kind)
    (ho1 : o1.kind = TokenKind.Slash ∨ o1.kind = TokenKind.Star)
    (ho2 : o2.kind = TokenKind.Slash ∨ o2.kind = TokenKind.Star)
    (he : e.kind = TokenKind.EOF) :
    Parser.factorP (f + 6) ⟨[a, o1, b, o2, c', e], 0⟩
      = Except.ok (Expr.Binary (binOp o2.kind)
          (Expr.Binary (binOp o1.kind) (litExpr a.kind) (litExpr b.kind))
          (litExpr c'.kind), ⟨[a, o1, b, o2, c', e], 5⟩) := by
  have h0 : [a, o1, b, o2, c', e].get? 0 = some a := rfl
  have h1 : [a, o1, b, o2, c', e].get? 1 = some o1 := rfl
  have h2 : [a, o1, b, o2, c', e].get? 2 = some b := rfl
  have h3 : [a, o1, b, o2, c', e].get? 3 = some o2 := rfl
  have h4 : [a, o1, b, o2, c', e].get? 4 = some c' := rfl
  have h5 : [a, o1, b, o2, c', e].get? 5 = some e := rfl
  have hu1 : Parser.unaryP (f + 5) ⟨[a, o1, b, o2, c', e], 0⟩
      = Except.ok (litExpr a.kind, ⟨[a, o1, b, o2, c', e], 1⟩) :=
    unary_lit (f + 3) _ 0 a h0 ha
  have hu2 : Parser.unaryP (f + 4) ⟨[a, o1, b, o2, c', e], 2⟩
      = Except.ok (litExpr b.kind, ⟨[a, o1, b, o2, c', e], 3⟩) :=
    unary_lit (f + 2) _ 2 b h2 hb
  have hu3 : Parser.unaryP (f + 3) ⟨[a, o1, b, o2, c', e], 4⟩
      = Except.ok (litExpr c'.kind, ⟨[a, o1, b, o2, c', e], 5⟩) :=
    unary_lit (f + 1) _ 4 c' h4 hc
  have hstep1 := factorLoop_step (f + 4) (litExpr a.kind) (litExpr b.kind) _ 1 o1
    ⟨[a, o1, b, o2, c', e], 3⟩ h1 ho1 hu2
  have hstep2 := factorLoop_step (f + 3)
    (Expr.Binary (binOp o1.kind) (litExpr a.kind) (litExpr b.kind)) (litExpr c'.kind)
    _ 3 o2 ⟨[a, o1, b, o2, c', e], 5⟩ h3 ho2 hu3
  have hstop := factorLoop_stop (f + 2)
    (Expr.Binary (binOp o2.kind)
      (Expr.Binary (binOp o1.kind) (litExpr a.kind) (litExpr b.kind)) (litExpr c'.kind))
    _ 5 e h5 (by simp [he]) (by simp [he])
  simp only [Parser.factorP]
  simp [hu1, hstep1, hstep2, hstop, eok_bind]

/-- Three literal operands chained by two `term`-level operators parse
left-associatively at the `term` level. -/
theorem termChain (f : Nat) (a o1 b o2 c' e : Token)
    (ha : isLitTok a.kind) (hb : isLitTok b.kind) (hc : isLitTok c'.kind)
    (ho1 : o1.kind = TokenKind.Minus ∨ o1.kind = TokenKind.Plus)
    (ho2 : o2.kind = TokenKind.Minus ∨ o2.kind = TokenKind.Plus)
    (he : e.kind = TokenKind.EOF) :
    Parser.termP (f + 6) ⟨[a, o1, b, o2, c', e], 0⟩
      = Except.ok (Expr.Binary (binOp o2.kind)
          (Expr.Binary (binOp o1.kind) (litExpr a.kind) (litExpr b.kind))
          (litExpr c'.kind), ⟨[a, o1, b, o2, c', e], 5⟩) := by
  have h0 : [a, o1, b, o2, c', e].get? 0 = some a := rfl
  have h1 : [a, o1, b, o2, c', e].get? 1 = some o1 := rfl
  have h2 : [a, o1, b, o2, c', e].get? 2 = some b := rfl
  have h3 : [a, o1, b, o2, c', e].get? 3 = some o2 := rfl
  have h4 : [a, o1, b, o2, c', e].get? 4 = some c' := rfl
  have h5 : [a, o1, b, o2, c', e].get? 5 = some e := rfl
  have hS1 : o1.kind ≠ TokenKind.Slash := by rcases ho1 with h | h <;> simp [h]
  have hT1 : o1.kind ≠ TokenKind.Star := by rcases ho1 with h | h <;> simp [h]
  have hS2 : o2.kind ≠ TokenKind.Slash := by rcases ho2 with h | h <;> simp [h]
  have hT2 : o2.kind ≠ TokenKind.Star := by rcases ho2 with h | h <;> simp [h]
  have hf1 : Parser.factorP (f + 5) ⟨[a, o1, b, o2, c', e], 0⟩
      = Except.ok (litExpr a.kind, ⟨[a, o1, b, o2, c', e], 1⟩) :=
    factor_lit (f + 2) _ 0 a o1 h0 ha h1 hS1 hT1
  have hf2 : Parser.factorP (f + 4) ⟨[a, o1, b, o2, c', e], 2⟩
      = Except.ok (litExpr b.kind, ⟨[a, o1, b, o2, c', e], 3⟩) :=
    factor_lit (f + 1) _ 2 b o2 h2 hb h3 hS2 hT2
  have hf3 : Parser.factorP (f + 3) ⟨[a, o1, b, o2, c', e], 4⟩
      = Except.ok (litExpr c'.kind, ⟨[a, o1, b, o2, c', e], 5⟩) :=
    factor_lit f _ 4 c' e h4 hc h5 (by simp [he]) (by simp [he])
  have hstep1 := termLoop_step (f + 4) (litExpr a.kind) (litExpr b.kind) _ 1 o1
    ⟨[a, o1, b, o2, c', e], 3⟩ h1 ho1 hf2
  have hstep2 := termLoop_step (f + 3)
    (Expr.Binary (binOp o1.kind) (litExpr a.kind) (litExpr b.kind)) (litExpr c'.kind)
    _ 3 o2 ⟨[a, o1, b, o2, c', e], 5⟩ h3 ho2 hf3
  have hstop := termLoop_stop (f + 2)
    (Expr.Binary (binOp o2.kind)
      (Expr.Binary (binOp o1.kind) (litExpr a.kind) (litExpr b.kind)) (litExpr c'.kind))
    _ 5 e h5 (by simp [he]) (by simp [he])
  simp only [Parser.termP]
  simp [hf1, hstep1, hstep2, hstop, eok_bind]

/-- Three literal operands chained by two `comparison`-level operators
parse left-associatively at the `comparison` level. -/
theorem comparisonChain (f : Nat) (a o1 b o2 c' e : Token)
    (ha : isLitTok a.kind) (hb : isLitTok b.kind) (hc : isLitTok c'.kind)
    (ho1 : o1.kind = TokenKind.Greater ∨ o1.kind = TokenKind.GreaterEqual
      ∨ o1.kind = TokenKind.Less ∨ o1.kind = TokenKind.LessEqual)
    (ho2 : o2.kind = TokenKind.Greater ∨ o2.kind = TokenKind.GreaterEqual
      ∨ o2.kind = TokenKind.Less ∨ o2.kind = TokenKind.LessEqual)
    (he : e.kind = TokenKind.EOF) :
    Parser.comparisonP (f + 7) ⟨[a, o1, b, o2, c', e], 0⟩
      = Except.ok (Expr.Binary (binOp o2.kind)
          (Expr.Binary (binOp o1.kind) (litExpr a.kind) (litExpr b.kind))
          (litExpr c'.kind), ⟨[a, o1, b, o2, c', e], 5⟩) := by
  have h0 : [a, o1, b, o2, c', e].get? 0 = some a := rfl
  have h1 : [a, o1, b, o2, c', e].get? 1 = some o1 := rfl
  have h2 : [a, o1, b, o2, c', e].get? 2 = some b := rfl
  have h3 : [a, o1, b, o2, c', e].get? 3 = some o2 := rfl
  have h4 : [a, o1, b, o2, c', e].get? 4 = some c' := rfl
  have h5 : [a, o1, b, o2, c', e].get? 5 = some e := rfl
  have hS1 : o1.kind ≠ TokenKind.Slash := by rcases ho1 with h | h | h | h <;> simp [h]
  have hT1 : o1.kind ≠ TokenKind.Star := by rcases ho1 with h | h | h | h <;> simp [h]
  have hM1 : o1.kind ≠ TokenKind.Minus := by rcases ho1 with h | h | h | h <;> simp [h]
  have hP1 : o1.kind ≠ TokenKind.Plus := by rcases ho1 with h | h | h | h <;> simp [h]
  have hS2 : o2.kind ≠ TokenKind.Slash := by rcases ho2 with h | h | h | h <;> simp [h]
  have hT2 : o2.kind ≠ TokenKind.Star := by rcases ho2 with h | h | h | h <;> simp [h]
  have hM2 : o2.kind ≠ TokenKind.Minus := by rcases ho2 with h | h | h | h <;> simp [h]
  have hP2 : o2.kind ≠ TokenKind.Plus := by rcases ho2 with h | h | h | h <;> simp [h]
  have ht1 : Parser.termP (f + 6) ⟨[a, o1, b, o2, c', e], 0⟩
      = Except.ok (litExpr a.kind, ⟨[a, o1, b, o2, c', e], 1⟩) :=
    term_lit (f + 2) _ 0 a o1 h0 ha h1 hS1 hT1 hM1 hP1
  have ht2 : Parser.termP (f + 5) ⟨[a, o1, b, o2, c', e], 2⟩
      = Except.ok (litExpr b.kind, ⟨[a, o1, b, o2, c', e], 3⟩) :=
    term_lit (f + 1) _ 2 b o2 h2 hb h3 hS2 hT2 hM2 hP2
  have ht3 : Parser.termP (f + 4) ⟨[a, o1, b, o2, c', e], 4⟩
      = Except.ok (litExpr c'.kind, ⟨[a, o1, b, o2, c', e], 5⟩) :=
    term_lit f _ 4 c' e h4 hc h5 (by simp [he]) (by simp [he]) (by simp [he]) (by simp [he])
  have hstep1 := comparisonLoop_step (f + 5) (litExpr a.kind) (litExpr b.kind) _ 1 o1
    ⟨[a, o1, b, o2, c', e], 3⟩ h1 ho1 ht2
  have hstep2 := comparisonLoop_step (f + 4)
    (Expr.Binary (binOp o1.kind) (litExpr a.kind) (litExpr b.kind)) (litExpr c'.kind)
    _ 3 o2 ⟨[a, o1, b, o2, c', e], 5⟩ h3 ho2 ht3
  have hstop := comparisonLoop_stop (f + 3)
    (Expr.Binary (binOp o2.kind)
      (Expr.Binary (binOp o1.kind) (litExpr a.kind) (litExpr b.kind)) (litExpr c'.kind))
    _ 5 e h5 (by simp [he]) (by simp [he]) (by simp [he]) (by simp [he])
  simp only [Parser.comparisonP]
  simp [ht1, hstep1, hstep2, hstop, eok_bind]

/-- Three literal operands chained by two `equality`-level operators parse
left-associatively at the `equality` level. -/
theorem equalityChain (f : Nat) (a o1 b o2 c' e : Token)
    (ha : isLitTok a.kind) (hb : isLitTok b.kind) (hc : isLitTok c'.kind)
    (ho1 : o1.kind = TokenKind.BangEqual ∨ o1.kind = TokenKind.EqualEqual)
    (ho2 : o2.kind = TokenKind.BangEqual ∨ o2.kind = TokenKind.EqualEqual)
    (he : e.kind = TokenKind.EOF) :
    Parser.equalityP (f + 8) ⟨[a, o1, b, o2, c', e], 0⟩
      = Except.ok (Expr.Binary (binOp o2.kind)
          (Expr.Binary (binOp o1.kind) (litExpr a.kind) (litExpr b.kind))
          (litExpr c'.kind), ⟨[a, o1, b, o2, c', e], 5⟩) := by
  have h0 : [a, o1, b, o2, c', e].get? 0 = some a := rfl
  have h1 : [a, o1, b, o2, c', e].get? 1 = some o1 := rfl
  have h2 : [a, o1, b, o2, c', e].get? 2 = some b := rfl
  have h3 : [a, o1, b, o2, c', e].get? 3 = some o2 := rfl
  have h4 : [a, o1, b, o2, c', e].get? 4 = some c' := rfl
  have h5 : [a, o1, b, o2, c', e].get? 5 = some e := rfl
  have hne8 : ∀ o : Token, o.kind = TokenKind.BangEqual ∨ o.kind = TokenKind.EqualEqual →
      o.kind ≠ TokenKind.Slash ∧ o.kind ≠ TokenKind.Star ∧ o.kind ≠ TokenKind.Minus
      ∧ o.kind ≠ TokenKind.Plus ∧ o.kind ≠ TokenKind.Greater
      ∧ o.kind ≠ TokenKind.GreaterEqual ∧ o.kind ≠ TokenKind.Less
      ∧ o.kind ≠ TokenKind.LessEqual := by
    rintro o (h | h) <;> simp [h]
  obtain ⟨hS1, hT1, hM1, hP1, hG1, hGE1, hL1, hLE1⟩ := hne8 o1 ho1
  obtain ⟨hS2, hT2, hM2, hP2, hG2, hGE2, hL2, hLE2⟩ := hne8 o2 ho2
  have hq1 : Parser.comparisonP (f + 7) ⟨[a, o1, b, o2, c', e], 0⟩
      = Except.ok (litExpr a.kind, ⟨[a, o1, b, o2, c', e], 1⟩) :=
    comparison_lit (f + 2) _ 0 a o1 h0 ha h1 hS1 hT1 hM1 hP1 hG1 hGE1 hL1 hLE1
  have hq2 : Parser.comparisonP (f + 6) ⟨[a, o1, b, o2, c', e], 2⟩
      = Except.ok (litExpr b.kind, ⟨[a, o1, b, o2, c', e], 3⟩) :=
    comparison_lit (f + 1) _ 2 b o2 h2 hb h3 hS2 hT2 hM2 hP2 hG2 hGE2 hL2 hLE2
  have hq3 : Parser.comparisonP (f + 5) ⟨[a, o1, b, o2, c', e], 4⟩
      = Except.ok (litExpr c'.kind, ⟨[a, o1, b, o2, c', e], 5⟩) :=
    comparison_lit f _ 4 c' e h4 hc h5 (by simp [he]) (by simp [he]) (by simp [he])
      (by simp [he]) (by simp [he]) (by simp [he]) (by simp [he]) (by simp [he])
  have hstep1 := equalityLoop_step (f + 6) (litExpr a.kind) (litExpr b.kind) _ 1 o1
    ⟨[a, o1, b, o2, c', e], 3⟩ h1 ho1 hq2
  have hstep2 := equalityLoop_step (f + 5)
    (Expr.Binary (binOp o1.kind) (litExpr a.kind) (litExpr b.kind)) (litExpr c'.kind)
    _ 3 o2 ⟨[a, o1, b, o2, c', e], 5⟩ h3 ho2 hq3
  have hstop := equalityLoop_stop (f + 4)
    (Expr.Binary (binOp o2.kind)
      (Expr.Binary (binOp o1.kind) (litExpr a.kind) (litExpr b.kind)) (litExpr c'.kind))
    _ 5 e h5 (by simp [he]) (by simp [he])
  simp only [Parser.equalityP]
  simp [hq1, hstep1, hstep2, hstop, eok_bind]

/-- C5: for any token sequence `operand op operand op operand EOF` with
both operators from the same precedence level, the parser produces the
left-associative tree: the left child of the result combines the first
two operands and the right child is the third. -/
theorem parse_left_assoc (f : Nat) (a o1 b o2 c' e : Token)
    (ha : isLitTok a.kind) (hb : isLitTok b.kind) (hc : isLitTok c'.kind)
    (he : e.kind = TokenKind.EOF) (hlv : sameLevel o1.kind o2.kind) :
    Parser.expressionP (f + 10) ⟨[a, o1, b, o2, c', e], 0⟩
      = Except.ok (Expr.Binary (binOp o2.kind)
          (Expr.Binary (binOp o1.kind) (litExpr a.kind) (litExpr b.kind))
          (litExpr c'.kind), ⟨[a, o1, b, o2, c', e], 5⟩) := by
  have h5 : [a, o1, b, o2, c', e].get? 5 = some e := rfl
  rcases hlv with ⟨hm1, hm2⟩ | ⟨hm1, hm2⟩ | ⟨hm1, hm2⟩ | ⟨hm1, hm2⟩ <;>
    simp only [List.mem_cons, List.mem_singleton, List.not_mem_nil, or_false] at hm1 hm2
  · have hch := equalityChain (f + 1) a o1 b o2 c' e ha hb hc hm1 hm2 he
    simp only [Parser.expressionP]
    simpa using hch
  · have hch := comparisonChain (f + 1) a o1 b o2 c' e ha hb hc hm1 hm2 he
    have hstop := equalityLoop_stop (f + 7)
      (Expr.Binary (binOp o2.kind)
        (Expr.Binary (binOp o1.kind) (litExpr a.kind) (litExpr b.kind)) (litExpr c'.kind))
      _ 5 e h5 (by simp [he]) (by simp [he])
    simp only [Parser.expressionP, Parser.equalityP]
    simp [hch, hstop, eok_bind]
  · have hch := termChain (f + 1) a o1 b o2 c' e ha hb hc hm1 hm2 he
    have hstop1 := comparisonLoop_stop (f + 6)
      (Expr.Binary (binOp o2.kind)
        (Expr.Binary (binOp o1.kind) (litExpr a.kind) (litExpr b.kind)) (litExpr c'.kind))
      _ 5 e h5 (by simp [he]) (by simp [he]) (by simp [he]) (by simp [he])
    have hstop2 := equalityLoop_stop (f + 7)
      (Expr.Binary (binOp o2.kind)
        (Expr.Binary (binOp o1.kind) (litExpr a.kind) (litExpr b.kind)) (litExpr c'.kind))
      _ 5 e h5 (by simp [he]) (by simp [he])
    simp only [Parser.expressionP, Parser.equalityP, Parser.comparisonP]
    simp [hch, hstop1, hstop2, eok_bind]
  · have hch := factorChain f a o1 b o2 c' e ha hb hc hm1 hm2 he
    have hstop0 := termLoop_stop (f + 5)
      (Expr.Binary (binOp o2.kind)
        (Expr.Binary (binOp o1.kind) (litExpr a.kind) (litExpr b.kind)) (litExpr c'.kind))
      _ 5 e h5 (by simp [he]) (by simp [he])
    have hstop1 := comparisonLoop_stop (f + 6)
      (Expr.Binary (binOp o2.kind)
        (Expr.Binary (binOp o1.kind) (litExpr a.kind) (litExpr b.kind)) (litExpr c'.kind))
      _ 5 e h5 (by simp [he]) (by simp [he]) (by simp [he]) (by simp [he])
    have hstop2 := equalityLoop_stop (f + 7)
      (Expr.Binary (binOp o2.kind)
        (Expr.Binary (binOp o1.kind) (litExpr a.kind) (litExpr b.kind)) (litExpr c'.kind))
      _ 5 e h5 (by simp [he]) (by simp [he])
    simp only [Parser.expressionP, Parser.equalityP, Parser.comparisonP, Parser.termP]
    simp [hch, hstop0, hstop1, hstop2, eok_bind]

/-- Witness for C5: the token sequence of `1 - 2 - 3` parses as
`(1 - 2) - 3`. -/
theorem parse_left_assoc_witness :
    Parser.expressionP 10 ⟨[⟨TokenKind.NumberLiteral (F64.finite 1), 1, 1⟩,
      ⟨TokenKind.Minus, 1, 3⟩, ⟨TokenKind.NumberLiteral (F64.finite 2), 1, 5⟩,
      ⟨TokenKind.Minus, 1, 7⟩, ⟨TokenKind.NumberLiteral (F64.finite 3), 1, 9⟩,
      ⟨TokenKind.EOF, 1, 9⟩], 0⟩
      = Except.ok (Expr.Binary BinaryOperator.Minus
          (Expr.Binary BinaryOperator.Minus
            (Expr.Literal (Literal.Number (F64.finite 1)))
            (Expr.Literal (Literal.Number (F64.finite 2))))
          (Expr.Literal (Literal.Number (F64.finite 3))),
          ⟨[⟨TokenKind.NumberLiteral (F64.finite 1), 1, 1⟩,
            ⟨TokenKind.Minus, 1, 3⟩, ⟨TokenKind.NumberLiteral (F64.finite 2), 1, 5⟩,
            ⟨TokenKind.Minus, 1, 7⟩, ⟨TokenKind.NumberLiteral (F64.finite 3), 1, 9⟩,
            ⟨TokenKind.EOF, 1, 9⟩], 5⟩) := by
  have h := parse_left_assoc 0 ⟨TokenKind.NumberLiteral (F64.finite 1), 1, 1⟩
    ⟨TokenKind.Minus, 1, 3⟩ ⟨TokenKind.NumberLiteral (F64.finite 2), 1, 5⟩
    ⟨TokenKind.Minus, 1, 7⟩ ⟨TokenKind.NumberLiteral (F64.finite 3), 1, 9⟩
    ⟨TokenKind.EOF, 1, 9⟩
    (Or.inl ⟨_, rfl⟩) (Or.inl ⟨_, rfl⟩) (Or.inl ⟨_, rfl⟩) rfl
    (Or.inr (Or.inr (Or.inl ⟨by simp, by simp⟩)))
  simpa [litExpr, binOp] using h

/-- An if-then-else both of whose branches fail is an error. -/
theorem ite_error_of {β ε : Type} (c : Prop) [Decidable c] (x y : Except ε β)
    (hx : ∃ e, x = Except.error e) (hy : ∃ e, y = Except.error e) :
    ∃ e, (if c then x else y) = Except.error e := by
  by_cases h : c
  · rw [if_pos h]; exact hx
  · rw [if_neg h]; exact hy

/-- Bind of an `Except` computation whose continuation always fails is an
error. -/
theorem bind_error_of {α β ε : Type} (x : Except ε α) (k : α → Except ε β)
    (hk : ∀ a, ∃ e, k a = Except.error e) : ∃ e, x >>= k = Except.error e := by
  cases x with
  | error e => exact ⟨e, rfl⟩
  | ok a => simpa [eok_bind] using hk a

/-- C4 (amended): when the token after `var` is not an Identifier,
`var_declaration` always raises a fatal ParseError — but only after the
optional initializer and terminating `;` are processed, and with the
identifier message only when those steps succeed: on `var true;` the
error is "Variable declarations require an identifier" (capital V, raised
at the end), while on `var ;` the `;`-consumption fails first with its
own message. -/
theorem var_decl_requires_identifier (f : Nat) (st : PState) (name : Token)
    (hname : st.tokens.get? st.current = some name)
    (hnid : ∀ s, name.kind ≠ TokenKind.Identifier s) :
    (∃ e, Parser.var_declaration f st = Except.error e)
    ∧ Parser.parse [⟨TokenKind.Var, 1, 3⟩, ⟨TokenKind.True, 1, 8⟩,
        ⟨TokenKind.Semicolon, 1, 9⟩, ⟨TokenKind.EOF, 1, 9⟩]
      = Except.error (PError.parseErr "Variable declarations require an identifier") := by
  constructor
  · rw [List.get?_eq_getElem?] at hname
    have hpeek : Parser.peekT st = Except.ok name := by simp [Parser.peekT, hname]
    unfold Parser.var_declaration
    rw [hpeek, eok_bind]
    apply bind_error_of
    rintro ⟨prev, st1⟩
    dsimp only
    apply bind_error_of
    rintro ⟨m, st2⟩
    dsimp only
    apply ite_error_of
    · apply bind_error_of
      rintro ⟨init, st3⟩
      dsimp only
      apply bind_error_of
      rintro ⟨tk, st4⟩
      dsimp only
      cases hk : name.kind <;>
        first
          | exact (hnid _ hk).elim
          | exact ⟨_, rfl⟩
    · rw [epure_def, eok_bind]
      dsimp only
      apply bind_error_of
      rintro ⟨tk, st4⟩
      dsimp only
      cases hk : name.kind <;>
        first
          | exact (hnid _ hk).elim
          | exact ⟨_, rfl⟩
  · rfl

/-- Witness for C4's amended claim: on `var ;` (name token `;`),
`var_declaration` fails. -/
theorem var_decl_requires_identifier_witness :
    ∃ e, Parser.var_declaration 4
      { tokens := [⟨TokenKind.Var, 1, 3⟩, ⟨TokenKind.Semicolon, 1, 5⟩, ⟨TokenKind.EOF, 1, 5⟩],
        current := 1 } = Except.error e :=
  (var_decl_requires_identifier 4
    { tokens := [⟨TokenKind.Var, 1, 3⟩, ⟨TokenKind.Semicolon, 1, 5⟩, ⟨TokenKind.EOF, 1, 5⟩],
      current := 1 }
    ⟨TokenKind.Semicolon, 1, 5⟩ rfl (by intro s h; cases h)).1

/-- C4 (counterexample to the claim as stated): on the token sequence of
`var ;` the token after `var` is not an Identifier, yet the ParseError
raised is "Expect ';' after variable declaration" — the `;` of the
declaration is processed before the identifier requirement is checked, so
the promised message "variable declarations require an identifier" is not
the one raised. -/
theorem var_decl_wrong_error :
    Parser.parse [⟨TokenKind.Var, 1, 3⟩, ⟨TokenKind.Semicolon, 1, 5⟩, ⟨TokenKind.EOF, 1, 5⟩]
      = Except.error (PError.parseErr "Expect ';' after variable declaration")
    ∧ PError.parseErr "Expect ';' after variable declaration"
        ≠ PError.parseErr "variable declarations require an identifier"
    ∧ PError.parseErr "Variable declarations require an identifier"
        ≠ PError.parseErr "variable declarations require an identifier" := by
  refine ⟨rfl, by simp, by simp⟩
